import Mathlib

/-!
Verification development for the tabs-to-epub-kindle pipeline.

Shallow embedding conventions used throughout this file:
* machine bytes are `Nat` values `< 256`; byte buffers (`Uint8Array`) are `List Nat`;
* 16/32-bit header fields are written through `le16`/`le32`, which truncate
  exactly like `DataView.setUint16`/`setUint32` (value taken mod 2^16 / 2^32);
* JS strings are Lean `String`s; `TextEncoder.encode` is `encodeString`
  (UTF-8 of the code points);
* optional JS string fields are plain `String`s with `""` playing the role of
  `undefined` (every use site in the embedded code only tests truthiness, and
  `undefined` and `""` are both falsy);
* network and platform effects (fetch, Date, crypto.randomUUID) are passed in
  explicitly as oracles / pre-rendered values.
-/

/-- Model of `DataView.setUint16(_, v, true)`: the two little-endian bytes of `v % 2^16`. -/
def le16 (n : Nat) : List Nat :=
  [n % 256, n / 256 % 256]

/-- Model of `DataView.setUint32(_, v, true)`: the four little-endian bytes of `v % 2^32`. -/
def le32 (n : Nat) : List Nat :=
  [n % 256, n / 256 % 256, n / 65536 % 256, n / 16777216 % 256]

/-- Byte read with default 0.  `DataView` getters throw when out of range; every
read performed in this file is in range, so the default is never observable. -/
def byteAt (l : List Nat) (i : Nat) : Nat :=
  l.getD i 0

/-- Model of `DataView.getUint16(offset, true)` on a byte list. -/
def readUint16 (l : List Nat) (i : Nat) : Nat :=
  byteAt l i + 256 * byteAt l (i + 1)

/-- Model of `DataView.getUint32(offset, true)` on a byte list. -/
def readUint32 (l : List Nat) (i : Nat) : Nat :=
  byteAt l i + 256 * byteAt l (i + 1) + 65536 * byteAt l (i + 2) + 16777216 * byteAt l (i + 3)

/-- One inner step of `makeCrcTable` in zip.ts:
`c = (c & 1) ? (0xedb88320 ^ (c >>> 1)) : (c >>> 1)`. -/
def crcStep (c : Nat) : Nat :=
  if c % 2 = 1 then Nat.xor 0xedb88320 (c / 2) else c / 2

/-- Entry `i` of the CRC-32 table from `makeCrcTable` (eight `crcStep` rounds on `i`). -/
def crcTableEntry (i : Nat) : Nat :=
  crcStep (crcStep (crcStep (crcStep (crcStep (crcStep (crcStep (crcStep i)))))))

/-- One byte of the `crc32` loop in zip.ts:
`crc = table[(crc ^ byte) & 0xff] ^ (crc >>> 8)`. -/
def crc32Update (crc byte : Nat) : Nat :=
  Nat.xor (crcTableEntry (Nat.xor crc byte % 256)) (crc / 256)

/-- Model of `crc32` from zip.ts (reflected polynomial, table driven). -/
def crc32 (buf : List Nat) : Nat :=
  Nat.xor (buf.foldl crc32Update 0xffffffff) 0xffffffff

/-- UTF-8 bytes of one code point, as produced by `TextEncoder`. -/
def encodeChar (c : Char) : List Nat :=
  let n := c.toNat
  if n < 0x80 then [n]
  else if n < 0x800 then [0xc0 + n / 64, 0x80 + n % 64]
  else if n < 0x10000 then [0xe0 + n / 4096, 0x80 + n / 64 % 64, 0x80 + n % 64]
  else [0xf0 + n / 0x40000, 0x80 + n / 4096 % 64, 0x80 + n / 64 % 64, 0x80 + n % 64]

/-- Model of `encodeString` in zip.ts (`TextEncoder.encode`). -/
def encodeString (s : String) : List Nat :=
  (s.toList.map encodeChar).flatten

/-- The `data` field of a `ZipEntry` in zip.ts: `string | Uint8Array | ArrayBuffer`
(the `Uint8Array` and `ArrayBuffer` cases carry the same bytes). -/
inductive ZipData where
  | bytes (bs : List Nat)
  | str (s : String)
deriving DecidableEq

/-- Model of `ZipEntry` in zip.ts. -/
structure ZipEntry where
  path : String
  data : ZipData
deriving DecidableEq

/-- Model of `ensureUint8` in zip.ts. -/
def ensureUint8 : ZipData → List Nat
  | .bytes bs => bs
  | .str s => encodeString s

/-- The components of a JS `Date` that `dateToDos` reads. -/
structure JsDate where
  year : Nat
  month : Nat
  day : Nat
  hours : Nat
  minutes : Nat
  seconds : Nat
deriving DecidableEq

/-- Model of `dateToDos` in zip.ts (`month` is already 1-based here, matching
`getMonth() + 1`). -/
def dateToDos (dt : JsDate) : Nat × Nat :=
  let year := if dt.year < 1980 then 1980 else dt.year
  let dosTime := Nat.lor (Nat.lor (Nat.shiftLeft dt.hours 11) (Nat.shiftLeft dt.minutes 5)) (dt.seconds / 2)
  let dosDate := Nat.lor (Nat.lor (Nat.shiftLeft (year - 1980) 9) (Nat.shiftLeft dt.month 5)) dt.day
  (dosTime, dosDate)

/-- The fixed 30 bytes of the local file header of one entry (zip.ts lines 86-98). -/
def localHeaderPre (mtime : JsDate) (nameBytes data : List Nat) : List Nat :=
  let dos := dateToDos mtime
  le32 0x04034b50 ++ le16 20 ++ le16 0x0800 ++ le16 0 ++
    le16 dos.1 ++ le16 dos.2 ++ le32 (crc32 data) ++
    le32 data.length ++ le32 data.length ++ le16 nameBytes.length ++ le16 0

/-- The local file header of one entry plus its name bytes (zip.ts lines 86-99). -/
def localHeader (mtime : JsDate) (nameBytes data : List Nat) : List Nat :=
  localHeaderPre mtime nameBytes data ++ nameBytes

/-- The 46-byte central directory record of one entry plus its name bytes
(zip.ts lines 106-125). -/
def centralRecord (mtime : JsDate) (nameBytes data : List Nat) (localHeaderOffset : Nat) : List Nat :=
  let dos := dateToDos mtime
  le32 0x02014b50 ++ le16 20 ++ le16 20 ++ le16 0x0800 ++ le16 0 ++
    le16 dos.1 ++ le16 dos.2 ++ le32 (crc32 data) ++
    le32 data.length ++ le32 data.length ++ le16 nameBytes.length ++
    le16 0 ++ le16 0 ++ le16 0 ++ le16 0 ++ le32 0 ++ le32 localHeaderOffset ++ nameBytes

/-- The end-of-central-directory record (zip.ts lines 135-145). -/
def endRecord (count centralSize centralOffset : Nat) : List Nat :=
  le32 0x06054b50 ++ le16 0 ++ le16 0 ++ le16 count ++ le16 count ++
    le32 centralSize ++ le32 centralOffset ++ le16 0

/-- The loop of `createZip`: returns the concatenated local chunks, the
concatenated central directory records, and the final `offset` value. -/
def createZipChunks (mtime : JsDate) : List ZipEntry → Nat → List Nat × List Nat × Nat
  | [], offset => ([], [], offset)
  | file :: rest, offset =>
    let nameBytes := encodeString file.path
    let data := ensureUint8 file.data
    let header := localHeader mtime nameBytes data
    let central := centralRecord mtime nameBytes data offset
    let r := createZipChunks mtime rest (offset + header.length + data.length)
    (header ++ data ++ r.1, central ++ r.2.1, r.2.2)

/-- Model of `createZip` in zip.ts: stored (uncompressed) entries, central
directory, end record, all little-endian. -/
def createZip (files : List ZipEntry) (mtime : JsDate) : List Nat :=
  let r := createZipChunks mtime files 0
  let centralSize := r.2.1.length
  let centralOffset := r.2.2
  r.1 ++ r.2.1 ++ endRecord files.length centralSize centralOffset

/-- Model of `readLocalFiles` from tests/helpers.ts, the local-header parser used
to read archives back.  It walks the stream as long as the next four bytes are
the local-header signature; the absolute-offset loop of the original is
expressed as recursion on the remaining suffix of the byte stream. -/
def readLocalFilesGo (rem : List Nat) : List (List Nat × List Nat) :=
  if h4 : 4 ≤ rem.length then
    if readUint32 rem 0 = 0x04034b50 then
      let compressedSize := readUint32 rem 18
      let nameLength := readUint16 rem 26
      let extraLength := readUint16 rem 28
      let nameBytes := ((rem.drop 30).take nameLength)
      let data := (rem.drop (30 + nameLength + extraLength)).take compressedSize
      have hlt : rem.length - (30 + nameLength + extraLength + compressedSize) < rem.length := by
        omega
      (nameBytes, data) :: readLocalFilesGo (rem.drop (30 + nameLength + extraLength + compressedSize))
    else []
  else []
termination_by rem.length
decreasing_by
  simpa using hlt

/-- Parse back the local-header stream: list of (name bytes, data bytes). -/
def readLocalFiles (zipBytes : List Nat) : List (List Nat × List Nat) :=
  readLocalFilesGo zipBytes

theorem localHeaderPre_length (mtime : JsDate) (nameBytes data : List Nat) :
    (localHeaderPre mtime nameBytes data).length = 30 := by
  simp [localHeaderPre, le16, le32]

theorem byteAt_pre (mtime : JsDate) (n d B : List Nat) :
    byteAt (localHeaderPre mtime n d ++ B) 0 = 0x50 ∧
    byteAt (localHeaderPre mtime n d ++ B) 1 = 0x4b ∧
    byteAt (localHeaderPre mtime n d ++ B) 2 = 0x03 ∧
    byteAt (localHeaderPre mtime n d ++ B) 3 = 0x04 ∧
    byteAt (localHeaderPre mtime n d ++ B) 18 = d.length % 256 ∧
    byteAt (localHeaderPre mtime n d ++ B) 19 = d.length / 256 % 256 ∧
    byteAt (localHeaderPre mtime n d ++ B) 20 = d.length / 65536 % 256 ∧
    byteAt (localHeaderPre mtime n d ++ B) 21 = d.length / 16777216 % 256 ∧
    byteAt (localHeaderPre mtime n d ++ B) 26 = n.length % 256 ∧
    byteAt (localHeaderPre mtime n d ++ B) 27 = n.length / 256 % 256 ∧
    byteAt (localHeaderPre mtime n d ++ B) 28 = 0 ∧
    byteAt (localHeaderPre mtime n d ++ B) 29 = 0 := by
  refine ⟨?_, ?_, ?_, ?_, ?_, ?_, ?_, ?_, ?_, ?_, ?_, ?_⟩ <;>
    simp [localHeaderPre, le16, le32, byteAt]

theorem readUint32_pre_0 (mtime : JsDate) (n d B : List Nat) :
    readUint32 (localHeaderPre mtime n d ++ B) 0 = 0x04034b50 := by
  obtain ⟨h0, h1, h2, h3, -⟩ := byteAt_pre mtime n d B
  rw [readUint32, h0, h1, h2, h3]

theorem readUint32_pre_18 (mtime : JsDate) (n d B : List Nat) :
    readUint32 (localHeaderPre mtime n d ++ B) 18 = d.length % 4294967296 := by
  obtain ⟨-, -, -, -, h18, h19, h20, h21, -⟩ := byteAt_pre mtime n d B
  rw [readUint32]
  rw [show (18 : Nat) + 1 = 19 from rfl, show (18 : Nat) + 2 = 20 from rfl,
    show (18 : Nat) + 3 = 21 from rfl, h18, h19, h20, h21]
  omega

theorem readUint16_pre_26 (mtime : JsDate) (n d B : List Nat) :
    readUint16 (localHeaderPre mtime n d ++ B) 26 = n.length % 65536 := by
  obtain ⟨-, -, -, -, -, -, -, -, h26, h27, -⟩ := byteAt_pre mtime n d B
  rw [readUint16, show (26 : Nat) + 1 = 27 from rfl, h26, h27]
  omega

theorem readUint16_pre_28 (mtime : JsDate) (n d B : List Nat) :
    readUint16 (localHeaderPre mtime n d ++ B) 28 = 0 := by
  obtain ⟨-, -, -, -, -, -, -, -, -, -, h28, h29⟩ := byteAt_pre mtime n d B
  rw [readUint16, show (28 : Nat) + 1 = 29 from rfl, h28, h29]

theorem readLocalFilesGo_entry (mtime : JsDate) (name data rest : List Nat)
    (hn : name.length < 65536) (hd : data.length < 4294967296) :
    readLocalFilesGo (localHeader mtime name data ++ (data ++ rest)) =
      (name, data) :: readLocalFilesGo rest := by
  have hAlen : (localHeaderPre mtime name data).length = 30 := localHeaderPre_length ..
  have hs : localHeader mtime name data ++ (data ++ rest)
      = localHeaderPre mtime name data ++ (name ++ (data ++ rest)) := by
    simp [localHeader]
  set A := localHeaderPre mtime name data with hA
  set T := name ++ (data ++ rest) with hT
  have h4 : 4 ≤ (A ++ T).length := by
    simp [List.length_append, hAlen]
    omega
  have hsig : readUint32 (A ++ T) 0 = 0x04034b50 := readUint32_pre_0 ..
  have hsz : readUint32 (A ++ T) 18 = data.length := by
    rw [hA, readUint32_pre_18, Nat.mod_eq_of_lt hd]
  have hnl : readUint16 (A ++ T) 26 = name.length := by
    rw [hA, readUint16_pre_26, Nat.mod_eq_of_lt hn]
  have hel : readUint16 (A ++ T) 28 = 0 := readUint16_pre_28 ..
  have hdrop30 : (A ++ T).drop 30 = T := by
    rw [← hAlen, List.drop_left]
  have hname : ((A ++ T).drop 30).take name.length = name := by
    rw [hdrop30, hT, List.take_left]
  have hdropData : (A ++ T).drop (30 + name.length + 0) = data ++ rest := by
    rw [show 30 + name.length + 0 = A.length + name.length by omega]
    rw [List.drop_append, hT, List.drop_left]
  have hdata : ((A ++ T).drop (30 + name.length + 0)).take data.length = data := by
    rw [hdropData, List.take_left]
  have hdropRest : (A ++ T).drop (30 + name.length + 0 + data.length) = rest := by
    rw [show 30 + name.length + 0 + data.length = A.length + (name.length + data.length) by omega]
    rw [List.drop_append, hT, List.drop_append, List.drop_left]
  rw [hs, readLocalFilesGo.eq_def]
  rw [dif_pos h4, if_pos hsig]
  simp only [hsz, hnl, hel, hname, hdata, hdropRest]

theorem readUint32_central_0 (mtime : JsDate) (n d : List Nat) (off : Nat) (B : List Nat) :
    readUint32 (centralRecord mtime n d off ++ B) 0 = 0x02014b50 := by
  have h0 : byteAt (centralRecord mtime n d off ++ B) 0 = 0x50 := by
    simp [centralRecord, le16, le32, byteAt]
  have h1 : byteAt (centralRecord mtime n d off ++ B) 1 = 0x4b := by
    simp [centralRecord, le16, le32, byteAt]
  have h2 : byteAt (centralRecord mtime n d off ++ B) 2 = 0x01 := by
    simp [centralRecord, le16, le32, byteAt]
  have h3 : byteAt (centralRecord mtime n d off ++ B) 3 = 0x02 := by
    simp [centralRecord, le16, le32, byteAt]
  rw [readUint32, h0, h1, h2, h3]

theorem readUint32_end_0 (count centralSize centralOffset : Nat) :
    readUint32 (endRecord count centralSize centralOffset) 0 = 0x06054b50 := by
  have h0 : byteAt (endRecord count centralSize centralOffset) 0 = 0x50 := by
    simp [endRecord, le16, le32, byteAt]
  have h1 : byteAt (endRecord count centralSize centralOffset) 1 = 0x4b := by
    simp [endRecord, le16, le32, byteAt]
  have h2 : byteAt (endRecord count centralSize centralOffset) 2 = 0x05 := by
    simp [endRecord, le16, le32, byteAt]
  have h3 : byteAt (endRecord count centralSize centralOffset) 3 = 0x06 := by
    simp [endRecord, le16, le32, byteAt]
  rw [readUint32, h0, h1, h2, h3]

/-- The parser stops as soon as it reaches the central directory. -/
theorem readLocalFilesGo_central (mtime : JsDate) (n d : List Nat) (off : Nat) (B : List Nat) :
    readLocalFilesGo (centralRecord mtime n d off ++ B) = [] := by
  have h4 : 4 ≤ (centralRecord mtime n d off ++ B).length := by
    simp [centralRecord, le16, le32]
  have hsig : ¬ readUint32 (centralRecord mtime n d off ++ B) 0 = 0x04034b50 := by
    rw [readUint32_central_0]
    omega
  rw [readLocalFilesGo.eq_def, dif_pos h4, if_neg hsig]

/-- The parser stops at the end-of-central-directory record. -/
theorem readLocalFilesGo_end (count centralSize centralOffset : Nat) :
    readLocalFilesGo (endRecord count centralSize centralOffset) = [] := by
  have h4 : 4 ≤ (endRecord count centralSize centralOffset).length := by
    simp [endRecord, le16, le32]
  have hsig : ¬ readUint32 (endRecord count centralSize centralOffset) 0 = 0x04034b50 := by
    rw [readUint32_end_0]
    omega
  rw [readLocalFilesGo.eq_def, dif_pos h4, if_neg hsig]

/-- Parsing the concatenated local chunks produced by the `createZip` loop yields
one (name, data) pair per entry, then continues into the trailing bytes. -/
theorem readLocalFilesGo_chunks (mtime : JsDate) (files : List ZipEntry) (offset : Nat)
    (T : List Nat)
    (hn : ∀ e ∈ files, (encodeString e.path).length < 65536)
    (hd : ∀ e ∈ files, (ensureUint8 e.data).length < 4294967296) :
    readLocalFilesGo ((createZipChunks mtime files offset).1 ++ T) =
      files.map (fun e => (encodeString e.path, ensureUint8 e.data)) ++ readLocalFilesGo T := by
  induction files generalizing offset with
  | nil => simp [createZipChunks]
  | cons f rest ih =>
    have hfn : (encodeString f.path).length < 65536 := hn f (by simp)
    have hfd : (ensureUint8 f.data).length < 4294967296 := hd f (by simp)
    simp only [createZipChunks]
    rw [List.append_assoc, List.append_assoc]
    rw [readLocalFilesGo_entry mtime _ _ _ hfn hfd]
    rw [ih _ (fun e he => hn e (by simp [he])) (fun e he => hd e (by simp [he]))]
    simp

/-- C1.  For every list of (path, data) entries whose encoded names fit the
16-bit name-length field and whose data fits the 32-bit size field, the archive
written by `createZip` parses back through the local-header format to exactly
the same entry names (UTF-8 encoded), in the same order, with byte-for-byte
identical content. -/
theorem createZip_roundTrip (files : List ZipEntry) (mtime : JsDate)
    (hn : ∀ e ∈ files, (encodeString e.path).length < 65536)
    (hd : ∀ e ∈ files, (ensureUint8 e.data).length < 4294967296) :
    readLocalFiles (createZip files mtime) =
      files.map (fun e => (encodeString e.path, ensureUint8 e.data)) := by
  rw [readLocalFiles, createZip]
  rw [List.append_assoc]
  rw [readLocalFilesGo_chunks mtime files 0 _ hn hd]
  have hstop : readLocalFilesGo ((createZipChunks mtime files 0).2.1 ++
      endRecord files.length (createZipChunks mtime files 0).2.1.length
        (createZipChunks mtime files 0).2.2) = [] := by
    cases files with
    | nil => simpa [createZipChunks] using readLocalFilesGo_end 0 0 0
    | cons f rest =>
      simp only [createZipChunks]
      rw [List.append_assoc]
      exact readLocalFilesGo_central ..
  rw [hstop, List.append_nil]

/-- Witness for C1 at a concrete two-entry archive. -/
theorem createZip_roundTrip_witness :
    readLocalFiles (createZip [⟨"mimetype", .str "application/epub+zip"⟩,
        ⟨"foo.txt", .bytes [104, 105]⟩] ⟨2024, 5, 1, 12, 30, 44⟩) =
      [(encodeString "mimetype", encodeString "application/epub+zip"),
       (encodeString "foo.txt", [104, 105])] :=
  createZip_roundTrip [⟨"mimetype", .str "application/epub+zip"⟩,
    ⟨"foo.txt", .bytes [104, 105]⟩] ⟨2024, 5, 1, 12, 30, 44⟩
    (by decide) (by decide)

/-- C10.  `createZip` on an empty entry list returns exactly the 22-byte
end-of-central-directory record: entry-count fields 0, central-directory size 0
and offset 0, and the local-header parser reads back zero entries. -/
theorem createZip_empty (mtime : JsDate) :
    createZip [] mtime =
      [0x50, 0x4b, 0x05, 0x06, 0, 0, 0, 0, 0, 0, 0, 0, 0, 0, 0, 0, 0, 0, 0, 0, 0, 0] ∧
    (createZip [] mtime).length = 22 ∧
    readUint16 (createZip [] mtime) 8 = 0 ∧
    readUint16 (createZip [] mtime) 10 = 0 ∧
    readUint32 (createZip [] mtime) 12 = 0 ∧
    readUint32 (createZip [] mtime) 16 = 0 ∧
    readLocalFiles (createZip [] mtime) = [] := by
  have h : createZip [] mtime = endRecord 0 0 0 := by
    norm_num [createZip, createZipChunks]
  refine ⟨?_, ?_, ?_, ?_, ?_, ?_, ?_⟩ <;> rw [h]
  · norm_num [endRecord, le16, le32]
  · norm_num [endRecord, le16, le32]
  · norm_num [endRecord, le16, le32, readUint16, byteAt]
  · norm_num [endRecord, le16, le32, readUint16, byteAt]
  · norm_num [endRecord, le16, le32, readUint32, byteAt]
  · norm_num [endRecord, le16, le32, readUint32, byteAt]
  · rw [readLocalFiles]
    exact readLocalFilesGo_end 0 0 0

/-- Model of `KindleAttachment` in kindle-email.ts. -/
structure KindleAttachment where
  filename : String
  mimeType : String
  bytes : List Nat
deriving DecidableEq

/-- Cumulative raw byte size of a batch. -/
def sumBytes (batch : List KindleAttachment) : Nat :=
  (batch.map (fun a => a.bytes.length)).sum

/-- The loop of `splitAttachmentsForKindle` (kindle-email.ts lines 49-73), with
the mutable `batches`/`current`/`currentBytes` state threaded explicitly: flush
when a limit would be exceeded, push the attachment, then flush immediately when
the freshly pushed attachment alone overflows the byte budget. -/
def splitGo (maxAttachments maxBytes : Nat) :
    List KindleAttachment → List KindleAttachment → Nat → List (List KindleAttachment)
  | [], current, _ => if 0 < current.length then [current] else []
  | attachment :: rest, current, currentBytes =>
    let size := attachment.bytes.length
    if maxAttachments ≤ current.length ∨ (0 < current.length ∧ maxBytes < currentBytes + size) then
      current ::
        (if maxBytes < size then [attachment] :: splitGo maxAttachments maxBytes rest [] 0
         else splitGo maxAttachments maxBytes rest [attachment] size)
    else
      if maxBytes < currentBytes + size then
        (current ++ [attachment]) :: splitGo maxAttachments maxBytes rest [] 0
      else
        splitGo maxAttachments maxBytes rest (current ++ [attachment]) (currentBytes + size)

/-- The options bag of `splitAttachmentsForKindle`. -/
structure SplitOptions where
  maxAttachmentsPerEmail : Option Nat
  maxTotalAttachmentBytes : Option Nat

/-- JS `value || default` on an optional number: `undefined` and `0` are falsy. -/
def jsOrNat (value : Option Nat) (default : Nat) : Nat :=
  match value with
  | none => default
  | some n => if n = 0 then default else n

/-- Model of `splitAttachmentsForKindle` in kindle-email.ts.  `Math.floor` is the
identity on the naturals used here. -/
def splitAttachmentsForKindle (attachments : List KindleAttachment)
    (options : Option SplitOptions) : List (List KindleAttachment) :=
  let maxAttachments := max 1 (jsOrNat (options.bind (fun o => o.maxAttachmentsPerEmail)) 25)
  let maxBytes := max 1 (jsOrNat (options.bind (fun o => o.maxTotalAttachmentBytes)) (18 * 1024 * 1024))
  splitGo maxAttachments maxBytes attachments [] 0

theorem splitGo_join (maxA maxB : Nat) :
    ∀ (atts current : List KindleAttachment) (currentBytes : Nat),
      (splitGo maxA maxB atts current currentBytes).flatten = current ++ atts := by
  intro atts
  induction atts with
  | nil =>
    intro current currentBytes
    simp only [splitGo]
    split
    · simp
    · rename_i h
      have hnil : current = [] := List.length_eq_zero.mp (by omega)
      simp [hnil]
  | cons a rest ih =>
    intro current currentBytes
    simp only [splitGo]
    split
    · split <;> simp [ih]
    · split <;> simp [ih]

theorem splitGo_count (maxA maxB : Nat) (hA : 1 ≤ maxA) :
    ∀ (atts current : List KindleAttachment) (currentBytes : Nat),
      current.length ≤ maxA →
      ∀ b ∈ splitGo maxA maxB atts current currentBytes, b.length ≤ maxA := by
  intro atts
  induction atts with
  | nil =>
    intro current currentBytes hcur b hb
    simp only [splitGo] at hb
    split at hb <;> simp_all
  | cons a rest ih =>
    intro current currentBytes hcur b hb
    simp only [splitGo] at hb
    split at hb
    · split at hb
      · rcases List.mem_cons.mp hb with hb | hb
        · subst hb
          exact hcur
        · rcases List.mem_cons.mp hb with hb | hb
          · subst hb
            simpa using hA
          · exact ih [] 0 (by simp) b hb
      · rcases List.mem_cons.mp hb with hb | hb
        · subst hb
          exact hcur
        · exact ih [a] a.bytes.length (by simpa using hA) b hb
    · rename_i hkeep
      push_neg at hkeep
      have hlt : current.length < maxA := hkeep.1
      split at hb
      · rcases List.mem_cons.mp hb with hb | hb
        · subst hb
          simp
          omega
        · exact ih [] 0 (by simp) b hb
      · exact ih (current ++ [a]) (currentBytes + a.bytes.length) (by simp; omega) b hb

theorem splitGo_bytes (maxA maxB : Nat) :
    ∀ (atts current : List KindleAttachment) (currentBytes : Nat),
      currentBytes = sumBytes current →
      sumBytes current ≤ maxB →
      ∀ b ∈ splitGo maxA maxB atts current currentBytes,
        maxB < sumBytes b → b.length = 1 := by
  intro atts
  induction atts with
  | nil =>
    intro current currentBytes hc hsum b hb hover
    simp only [splitGo] at hb
    split at hb <;> simp_all
    omega
  | cons a rest ih =>
    intro current currentBytes hc hsum b hb hover
    simp only [splitGo] at hb
    split at hb
    · split at hb
      · rcases List.mem_cons.mp hb with hb | hb
        · subst hb
          omega
        · rcases List.mem_cons.mp hb with hb | hb
          · subst hb
            rfl
          · exact ih [] 0 (by simp [sumBytes]) (by simp [sumBytes]) b hb hover
      · rename_i hfit
        push_neg at hfit
        rcases List.mem_cons.mp hb with hb | hb
        · subst hb
          omega
        · refine ih [a] a.bytes.length ?_ ?_ b hb hover
          · simp [sumBytes]
          · simpa [sumBytes] using hfit
    · rename_i hkeep
      push_neg at hkeep
      split at hb
      · rename_i hpost
        rcases List.mem_cons.mp hb with hb | hb
        · subst hb
          have hzero : current.length = 0 := by
            rcases Nat.eq_zero_or_pos current.length with h | h
            · exact h
            · exact absurd hpost (by simpa using hkeep.2 h)
          have hnil : current = [] := List.length_eq_zero.mp hzero
          simp [hnil]
        · exact ih [] 0 (by simp [sumBytes]) (by simp [sumBytes]) b hb hover
      · rename_i hpost
        push_neg at hpost
        refine ih (current ++ [a]) (currentBytes + a.bytes.length) ?_ ?_ b hb hover
        · simp [sumBytes] at hc ⊢
          omega
        · simp [sumBytes] at hc ⊢
          omega

/-- A five-byte attachment used by the worked batching example. -/
def fiveByteAtt (name : String) : KindleAttachment :=
  ⟨name, "application/pdf", [0, 0, 0, 0, 0]⟩

/-- C3.  For limits maxCount ≥ 1 and maxBytes ≥ 1, batching partitions the
attachment list in order (flattening the batches gives back the input), no
batch holds more than maxCount attachments, a batch over the byte budget is
always a single oversize attachment, and the worked example of four 5-byte
attachments with maxCount 2 and maxBytes 12 splits into two pairs. -/
theorem splitAttachmentsForKindle_spec (attachments : List KindleAttachment)
    (maxCount maxBytes : Nat) (hC : 1 ≤ maxCount) (hB : 1 ≤ maxBytes) :
    ((splitAttachmentsForKindle attachments (some ⟨some maxCount, some maxBytes⟩)).flatten
        = attachments ∧
      (∀ b ∈ splitAttachmentsForKindle attachments (some ⟨some maxCount, some maxBytes⟩),
        b.length ≤ maxCount) ∧
      (∀ b ∈ splitAttachmentsForKindle attachments (some ⟨some maxCount, some maxBytes⟩),
        maxBytes < sumBytes b → b.length = 1)) ∧
    splitAttachmentsForKindle
        [fiveByteAtt "a", fiveByteAtt "b", fiveByteAtt "c", fiveByteAtt "d"]
        (some ⟨some 2, some 12⟩)
      = [[fiveByteAtt "a", fiveByteAtt "b"], [fiveByteAtt "c", fiveByteAtt "d"]] := by
  have hred : splitAttachmentsForKindle attachments (some ⟨some maxCount, some maxBytes⟩)
      = splitGo maxCount maxBytes attachments [] 0 := by
    have h1 : max 1 (jsOrNat (some maxCount) 25) = maxCount := by
      simp only [jsOrNat]
      rw [if_neg (by omega)]
      omega
    have h2 : max 1 (jsOrNat (some maxBytes) (18 * 1024 * 1024)) = maxBytes := by
      simp only [jsOrNat]
      rw [if_neg (by omega)]
      omega
    simp [splitAttachmentsForKindle, h1, h2]
  refine ⟨⟨?_, ?_, ?_⟩, by decide⟩
  · rw [hred]
    simpa using splitGo_join maxCount maxBytes attachments [] 0
  · rw [hred]
    exact splitGo_count maxCount maxBytes hC attachments [] 0 (by simp)
  · rw [hred]
    exact splitGo_bytes maxCount maxBytes attachments [] 0 (by simp [sumBytes]) (by simp [sumBytes])

/-- Witness for C3 at the worked four-attachment example. -/
theorem splitAttachmentsForKindle_spec_witness :
    (splitAttachmentsForKindle
        [fiveByteAtt "a", fiveByteAtt "b", fiveByteAtt "c", fiveByteAtt "d"]
        (some ⟨some 2, some 12⟩)).flatten
      = [fiveByteAtt "a", fiveByteAtt "b", fiveByteAtt "c", fiveByteAtt "d"] :=
  (splitAttachmentsForKindle_spec
    [fiveByteAtt "a", fiveByteAtt "b", fiveByteAtt "c", fiveByteAtt "d"]
    2 12 (by decide) (by decide)).1.1

/-- JS `toLowerCase` restricted to the simple character mapping (ASCII in every
string this code handles). -/
def lowerAscii (s : String) : String :=
  String.mk (s.toList.map Char.toLower)

/-- Decidable prefix test on character lists. -/
def isPrefixSeq : List Char → List Char → Bool
  | [], _ => true
  | _ :: _, [] => false
  | a :: as, b :: bs => a == b && isPrefixSeq as bs

/-- Decidable contiguous-occurrence test: does `pattern` occur inside `s`? -/
def containsSeq (pattern s : List Char) : Bool :=
  match s with
  | [] => pattern.isEmpty
  | _ :: rest => isPrefixSeq pattern s || containsSeq pattern rest

/-- Model of `isTooLargeEmailError` in email-artifacts.ts:
`/too large to send via gmail/i.test(message)` (a literal ASCII pattern with the
`i` flag, i.e. a case-insensitive substring test). -/
def isTooLargeEmailError (message : String) : Bool :=
  containsSeq ("too large to send via gmail".toList) ((lowerAscii message).toList)

/-- Model of `EmailArtifact` in email-artifacts.ts. -/
structure EmailArtifact where
  filename : String
  mimeType : String
  bytes : List Nat
deriving DecidableEq

/-- Model of `toKindleAttachment` in email-artifacts.ts. -/
def toKindleAttachment (artifact : EmailArtifact) : KindleAttachment :=
  ⟨artifact.filename, artifact.mimeType, artifact.bytes⟩

/-- JS `Set.add` on the too-large name set, keeping insertion order. -/
def addTooLarge (acc : List String) (name : String) : List String :=
  if name ∈ acc then acc else acc ++ [name]

/-- Model of the inner `sendBatch` closure of
`emailArtifactsToKindleCollectTooLarge`: a size-limit failure records every
filename of the batch and is swallowed; any other failure is rethrown. -/
def sendBatchModel (send : List KindleAttachment → String → Except String Unit)
    (kindleEmail : String) (batch : List KindleAttachment) (tooLarge : List String) :
    Except String (List String) :=
  match send batch kindleEmail with
  | .ok _ => .ok tooLarge
  | .error message =>
    if isTooLargeEmailError message then
      .ok (batch.foldl (fun acc attachment => addTooLarge acc attachment.filename) tooLarge)
    else
      .error message

/-- Sequential delivery of a list of batches, threading the too-large set. -/
def sendBatchesModel (send : List KindleAttachment → String → Except String Unit)
    (kindleEmail : String) :
    List (List KindleAttachment) → List String → Except String (List String)
  | [], tooLarge => .ok tooLarge
  | batch :: rest, tooLarge =>
    match sendBatchModel send kindleEmail batch tooLarge with
    | .ok next => sendBatchesModel send kindleEmail rest next
    | .error e => .error e

/-- The batches `emailArtifactsToKindleCollectTooLarge` sends: one
single-attachment batch per EPUB artifact, then the PDF attachments split with
the default limits. -/
def plannedEmailBatches (artifacts : List EmailArtifact) : List (List KindleAttachment) :=
  (artifacts.filter (fun a => a.mimeType = "application/epub+zip")).map
      (fun a => [toKindleAttachment a]) ++
    splitAttachmentsForKindle
      ((artifacts.filter (fun a => a.mimeType = "application/pdf")).map toKindleAttachment)
      none

/-- Model of `emailArtifactsToKindleCollectTooLarge` in email-artifacts.ts.  The
transport (`sendKindleAttachments` with its awaited failure) is the `send`
oracle; the returned list is `Array.from(tooLarge)` in insertion order. -/
def emailArtifactsToKindleCollectTooLarge
    (send : List KindleAttachment → String → Except String Unit)
    (artifacts : List EmailArtifact) (kindleEmail : String) : Except String (List String) :=
  let epubBatches :=
    (artifacts.filter (fun a => a.mimeType = "application/epub+zip")).map
      (fun a => [toKindleAttachment a])
  let pdfAttachments :=
    (artifacts.filter (fun a => a.mimeType = "application/pdf")).map toKindleAttachment
  match sendBatchesModel send kindleEmail epubBatches [] with
  | .error e => .error e
  | .ok tooLarge =>
    sendBatchesModel send kindleEmail (splitAttachmentsForKindle pdfAttachments none) tooLarge

theorem mem_foldl_addTooLarge (batch : List KindleAttachment) :
    ∀ (acc : List String) (x : String), x ∈ acc →
      x ∈ batch.foldl (fun acc attachment => addTooLarge acc attachment.filename) acc := by
  induction batch with
  | nil => simp
  | cons a rest ih =>
    intro acc x hx
    refine ih (addTooLarge acc a.filename) x ?_
    simp only [addTooLarge]
    split
    · exact hx
    · simp [hx]

theorem filename_mem_foldl_addTooLarge (batch : List KindleAttachment) :
    ∀ (acc : List String) (a : KindleAttachment), a ∈ batch →
      a.filename ∈ batch.foldl (fun acc attachment => addTooLarge acc attachment.filename) acc := by
  induction batch with
  | nil => simp
  | cons b rest ih =>
    intro acc a ha
    rcases List.mem_cons.mp ha with ha | ha
    · subst ha
      refine mem_foldl_addTooLarge rest _ _ ?_
      simp only [addTooLarge]
      split
      · assumption
      · simp
    · exact ih _ a ha

theorem sendBatchesModel_spec (send : List KindleAttachment → String → Except String Unit)
    (kindleEmail : String)
    (h : ∀ batch msg, send batch kindleEmail = .error msg → isTooLargeEmailError msg = true) :
    ∀ (batches : List (List KindleAttachment)) (tooLarge : List String),
      ∃ out, sendBatchesModel send kindleEmail batches tooLarge = .ok out ∧
        (∀ x ∈ tooLarge, x ∈ out) ∧
        (∀ batch ∈ batches, ∀ msg, send batch kindleEmail = .error msg →
          ∀ a ∈ batch, a.filename ∈ out) := by
  intro batches
  induction batches with
  | nil =>
    intro tooLarge
    exact ⟨tooLarge, rfl, fun x hx => hx, by simp⟩
  | cons batch rest ih =>
    intro tooLarge
    cases hsend : send batch kindleEmail with
    | ok u =>
      obtain ⟨out, hout, hmono, hbatches⟩ := ih tooLarge
      refine ⟨out, ?_, hmono, ?_⟩
      · simpa [sendBatchesModel, sendBatchModel, hsend] using hout
      · intro b hb msg hmsg a ha
        rcases List.mem_cons.mp hb with hb | hb
        · subst hb
          rw [hsend] at hmsg
          cases hmsg
        · exact hbatches b hb msg hmsg a ha
    | error msg =>
      have hlarge := h batch msg hsend
      obtain ⟨out, hout, hmono, hbatches⟩ :=
        ih (batch.foldl (fun acc attachment => addTooLarge acc attachment.filename) tooLarge)
      refine ⟨out, ?_, ?_, ?_⟩
      · simpa [sendBatchesModel, sendBatchModel, hsend, hlarge] using hout
      · intro x hx
        exact hmono x (mem_foldl_addTooLarge batch tooLarge x hx)
      · intro b hb m hm a ha
        rcases List.mem_cons.mp hb with hb | hb
        · subst hb
          exact hmono a.filename (filename_mem_foldl_addTooLarge b tooLarge a ha)
        · exact hbatches b hb m hm a ha

/-- C8.  If every failure the transport reports is a size-limit failure
(matching "too large to send via gmail" case-insensitively), the whole delivery
succeeds, and every artifact of every failing batch is present in the returned
too-large set: size-limit failures never abort the remaining batches. -/
theorem emailArtifacts_collects_tooLarge
    (send : List KindleAttachment → String → Except String Unit)
    (artifacts : List EmailArtifact) (kindleEmail : String)
    (h : ∀ batch msg, send batch kindleEmail = .error msg → isTooLargeEmailError msg = true) :
    ∃ out, emailArtifactsToKindleCollectTooLarge send artifacts kindleEmail = .ok out ∧
      ∀ batch ∈ plannedEmailBatches artifacts, ∀ msg, send batch kindleEmail = .error msg →
        ∀ a ∈ batch, a.filename ∈ out := by
  obtain ⟨out1, hout1, _, hb1⟩ := sendBatchesModel_spec send kindleEmail h
    ((artifacts.filter (fun a => a.mimeType = "application/epub+zip")).map
      (fun a => [toKindleAttachment a])) []
  obtain ⟨out2, hout2, hmono2, hb2⟩ := sendBatchesModel_spec send kindleEmail h
    (splitAttachmentsForKindle
      ((artifacts.filter (fun a => a.mimeType = "application/pdf")).map toKindleAttachment)
      none) out1
  refine ⟨out2, ?_, ?_⟩
  · rw [emailArtifactsToKindleCollectTooLarge, hout1]
    exact hout2
  · intro batch hbatch msg hmsg a ha
    rcases List.mem_append.mp hbatch with hb | hb
    · exact hmono2 a.filename (hb1 batch hb msg hmsg a ha)
    · exact hb2 batch hb msg hmsg a ha

/-- Witness for C8: a transport that always reports a size-limit failure; both
artifacts end up in the returned too-large set and delivery still succeeds. -/
theorem emailArtifacts_collects_tooLarge_witness :
    ∃ out, emailArtifactsToKindleCollectTooLarge
        (fun _ _ => .error "Attachments are too large to send via Gmail (20.1 MB total).")
        [⟨"book.epub", "application/epub+zip", [1]⟩, ⟨"doc.pdf", "application/pdf", [2]⟩]
        "user@kindle.com" = .ok out ∧
      ∀ batch ∈ plannedEmailBatches
          [⟨"book.epub", "application/epub+zip", [1]⟩, ⟨"doc.pdf", "application/pdf", [2]⟩],
        ∀ msg, (fun (_ : List KindleAttachment) (_ : String) =>
            Except.error (ε := String) (α := Unit)
              "Attachments are too large to send via Gmail (20.1 MB total).") batch "user@kindle.com"
            = .error msg →
        ∀ a ∈ batch, a.filename ∈ out :=
  emailArtifacts_collects_tooLarge
    (fun _ _ => .error "Attachments are too large to send via Gmail (20.1 MB total).")
    [⟨"book.epub", "application/epub+zip", [1]⟩, ⟨"doc.pdf", "application/pdf", [2]⟩]
    "user@kindle.com"
    (by
      intro batch msg hmsg
      cases hmsg
      decide)

/-- Decimal digits of `n` with explicit fuel (one digit is produced per fuel
step, and `n` has at most `n + 1` digits, so the fuel never runs out).  This is
the decimal rendering JS string interpolation performs on a natural number. -/
def decimalOfAux : Nat → Nat → List Char
  | 0, _ => []
  | f + 1, n =>
    if n < 10 then [Char.ofNat (48 + n)]
    else decimalOfAux f (n / 10) ++ [Char.ofNat (48 + n % 10)]

/-- JS template interpolation of a natural number. -/
def decimalOf (n : Nat) : String :=
  String.mk (decimalOfAux (n + 1) n)

theorem charToNat_ofNat_valid (n : Nat) (hv : n.isValidChar) :
    (Char.ofNat n).toNat = n := by
  rw [Char.ofNat, dif_pos hv]
  rfl

theorem charToNat_digit (n : Nat) (h : n < 10) : (Char.ofNat (48 + n)).toNat = 48 + n :=
  charToNat_ofNat_valid (48 + n) (Or.inl (by omega))

theorem decimalOfAux_digits : ∀ (n fuel : Nat), ∀ c ∈ decimalOfAux fuel n,
    48 ≤ c.toNat ∧ c.toNat ≤ 57 := by
  intro n
  induction n using Nat.strong_induction_on with
  | _ n ih =>
    intro fuel c hc
    match fuel with
    | 0 => simp [decimalOfAux] at hc
    | f + 1 =>
      rw [decimalOfAux] at hc
      split at hc
      · rename_i hn
        simp only [List.mem_singleton] at hc
        subst hc
        rw [charToNat_digit n hn]
        omega
      · rename_i hn
        rcases List.mem_append.mp hc with hc | hc
        · exact ih (n / 10) (by omega) f c hc
        · simp only [List.mem_singleton] at hc
          subst hc
          rw [charToNat_digit (n % 10) (by omega)]
          omega

/-- Characters of a string that is placed inside markup text or an attribute
value without breaking the tag structure. -/
abbrev NoAngle (cs : List Char) : Prop :=
  ∀ c ∈ cs, c ≠ '<' ∧ c ≠ '>'

theorem noAngle_decimalOf (n : Nat) : NoAngle (decimalOf n).toList := by
  intro c hc
  have h := decimalOfAux_digits n (n + 1) c (by simpa [decimalOf] using hc)
  constructor <;> (intro heq; subst heq; revert h; decide)

/-- Expansion of one character under `escapeXml` from strings.ts.  The chained
global replaces of the original (`&` first, then `<`, `>`, `"`, the apostrophe)
act independently per character because no replacement string contains a
character that a later stage rewrites. -/
def escapeXmlChar (c : Char) : List Char :=
  if c = '&' then "&amp;".toList
  else if c = '<' then "&lt;".toList
  else if c = '>' then "&gt;".toList
  else if c = '"' then "&quot;".toList
  else if c = Char.ofNat 39 then ("&apos" ++ ";").toList
  else [c]

/-- Model of `escapeXml` in strings.ts. -/
def escapeXml (value : String) : String :=
  String.mk ((value.toList.map escapeXmlChar).flatten)

theorem noAngle_escapeXmlChar (d : Char) : ∀ c ∈ escapeXmlChar d, c ≠ '<' ∧ c ≠ '>' := by
  by_cases h1 : d = '&'
  · subst h1
    decide
  by_cases h2 : d = '<'
  · subst h2
    decide
  by_cases h3 : d = '>'
  · subst h3
    decide
  by_cases h4 : d = '"'
  · subst h4
    decide
  by_cases h5 : d = Char.ofNat 39
  · subst h5
    decide
  intro c hc
  rw [escapeXmlChar, if_neg h1, if_neg h2, if_neg h3, if_neg h4, if_neg h5] at hc
  simp only [List.mem_singleton] at hc
  subst hc
  exact ⟨h2, h3⟩

theorem noAngle_escapeXml (value : String) : NoAngle (escapeXml value).toList := by
  intro c hc
  simp only [escapeXml, String.toList] at hc
  obtain ⟨l, hl, hc⟩ := List.mem_flatten.mp hc
  obtain ⟨d, _, hd⟩ := List.mem_map.mp hl
  subst hd
  exact noAngle_escapeXmlChar d c hc

/-- Markup tag scanner: walking the characters, `none` means outside a tag and
`some acc` means inside a tag with `acc` holding the collected tag characters in
reverse.  Emits the contents (between < and >) of every completed tag. -/
def tagsOfGo : List Char → Option (List Char) → List String
  | [], _ => []
  | c :: rest, none =>
    if c = '<' then tagsOfGo rest (some []) else tagsOfGo rest none
  | c :: rest, some acc =>
    if c = '>' then String.mk acc.reverse :: tagsOfGo rest none
    else tagsOfGo rest (some (c :: acc))

/-- Final scanner state after walking the characters. -/
def scanEnd : List Char → Option (List Char) → Option (List Char)
  | [], st => st
  | c :: rest, none => scanEnd rest (if c = '<' then some [] else none)
  | c :: rest, some acc => scanEnd rest (if c = '>' then none else some (c :: acc))

/-- The list of tag bodies of a markup string. -/
def tagsOf (s : String) : List String :=
  tagsOfGo s.toList none

theorem tagsOfGo_append : ∀ (a b : List Char) (st : Option (List Char)),
    tagsOfGo (a ++ b) st = tagsOfGo a st ++ tagsOfGo b (scanEnd a st) := by
  intro a
  induction a with
  | nil => intro b st; simp [tagsOfGo, scanEnd]
  | cons c rest ih =>
    intro b st
    match st with
    | none =>
      by_cases hc : c = '<'
      · simp [tagsOfGo, scanEnd, hc, ih]
      · simp [tagsOfGo, scanEnd, hc, ih]
    | some acc =>
      by_cases hc : c = '>'
      · simp [tagsOfGo, scanEnd, hc, ih]
      · simp [tagsOfGo, scanEnd, hc, ih]

theorem scanEnd_append : ∀ (a b : List Char) (st : Option (List Char)),
    scanEnd (a ++ b) st = scanEnd b (scanEnd a st) := by
  intro a
  induction a with
  | nil => intro b st; simp [scanEnd]
  | cons c rest ih =>
    intro b st
    match st with
    | none => simp [scanEnd, ih]
    | some acc => simp [scanEnd, ih]

theorem tagsOfGo_noAngle : ∀ (cs : List Char), NoAngle cs →
    ∀ st, tagsOfGo cs st = [] := by
  intro cs
  induction cs with
  | nil => intro _ st; simp [tagsOfGo]
  | cons c rest ih =>
    intro h st
    have hc := h c (by simp)
    have hrest : NoAngle rest := fun d hd => h d (by simp [hd])
    match st with
    | none => simp [tagsOfGo, hc.1, ih hrest]
    | some acc => simp [tagsOfGo, hc.2, ih hrest]

theorem scanEnd_noAngle_none : ∀ (cs : List Char), NoAngle cs →
    scanEnd cs none = none := by
  intro cs
  induction cs with
  | nil => intro _; simp [scanEnd]
  | cons c rest ih =>
    intro h
    have hc := h c (by simp)
    have hrest : NoAngle rest := fun d hd => h d (by simp [hd])
    simp [scanEnd, hc.1, ih hrest]

theorem scanEnd_noAngle_some : ∀ (cs : List Char), NoAngle cs →
    ∀ acc, scanEnd cs (some acc) = some (cs.reverse ++ acc) := by
  intro cs
  induction cs with
  | nil => intro _ acc; simp [scanEnd]
  | cons c rest ih =>
    intro h acc
    have hc := h c (by simp)
    have hrest : NoAngle rest := fun d hd => h d (by simp [hd])
    simp [scanEnd, hc.2, ih hrest]

/-- JS `a || b` on strings: the empty string (like `undefined`) is falsy. -/
def jsOr (value fallback : String) : String :=
  if value = "" then fallback else value

/-- Model of `ArticleInput` in types.ts.  Optional string fields are plain
strings with `""` for `undefined`; every use in epub.ts is a truthiness test. -/
structure ArticleInput where
  title : String := ""
  byline : String := ""
  content : String := ""
  excerpt : String := ""
  siteName : String := ""
  url : String := ""
  lang : String := ""
deriving DecidableEq, Inhabited

/-- Model of `EpubAsset` in types.ts (`href` optional, `""` for `undefined`). -/
structure EpubAsset where
  path : String
  href : String := ""
  mediaType : String
  data : List Nat
deriving DecidableEq

/-- Model of `BuildEpubOptions` in types.ts.  `modified` is the optional `Date`;
`assets` is `Option` to model the `Array.isArray` guard. -/
structure BuildEpubOptions where
  title : String := ""
  language : String := ""
  identifier : String := ""
  filename : String := ""
  modified : Option JsDate := none
  assets : Option (List EpubAsset) := none

/-- Model of `BuildEpubResult` in types.ts. -/
structure BuildEpubResult where
  bytes : List Nat
  filename : String
deriving DecidableEq

/-- List with 0-based indexes attached, modelling `map((x, index) => ...)`. -/
def enumFrom {α : Type} (k : Nat) : List α → List (Nat × α)
  | [] => []
  | a :: rest => (k, a) :: enumFrom (k + 1) rest

/-- JS `Array.prototype.join` with a newline separator. -/
def newlineJoin : List String → String
  | [] => ""
  | [s] => s
  | s :: rest => s ++ "\n" ++ newlineJoin rest

/-- Model of `normalizeArticle` in epub.ts; `strip` abstracts the regex-based
`stripInteractive` tag remover, which no claim in this development inspects. -/
def normalizeArticle (strip : String → String) (article : ArticleInput) (index : Nat) :
    ArticleInput :=
  { article with
    title := jsOr article.title ("Article " ++ decimalOf (index + 1))
    content := strip article.content }

/-- Model of `defaultTitle` in epub.ts; `nowStamp` is the `formatTimestamp()`
value of the current date. -/
def defaultTitle (nowStamp : String) (articles : List ArticleInput) : String :=
  match articles with
  | [article] => if article.title ≠ "" then article.title else "Saved Tabs " ++ nowStamp
  | _ => "Saved Tabs " ++ nowStamp

/-- Model of `buildArticleXhtml` in epub.ts. -/
def buildArticleXhtml (article : ArticleInput) (index : Nat) (lang : String) : String :=
  let title := escapeXml (jsOr article.title ("Article " ++ decimalOf (index + 1)))
  let byline :=
    if article.byline ≠ "" then
      "<p class=\"byline\">" ++ escapeXml article.byline ++ "</p>"
    else ""
  let source :=
    if article.url ≠ "" then
      "<p class=\"source\">Source: <a href=\"" ++ escapeXml article.url ++ "\">" ++
        escapeXml article.url ++ "</a></p>"
    else ""
  let content :=
    if article.content ≠ "" then article.content
    else if article.excerpt ≠ "" then "<p>" ++ escapeXml article.excerpt ++ "</p>"
    else "<p>(No content extracted.)</p>"
  "<?xml version=\"1.0\" encoding=\"utf-8\"?>\n<!DOCTYPE html>\n<html xmlns=\"http://www.w3.org/1999/xhtml\" lang=\"" ++
    escapeXml lang ++ "\">\n<head>\n  <meta charset=\"utf-8\"/>\n  <title>" ++ title ++
    "</title>\n  <link rel=\"stylesheet\" href=\"styles.css\"/>\n</head>\n<body>\n  <article>\n    <h1>" ++
    title ++ "</h1>\n    " ++ byline ++ "\n    " ++ content ++ "\n    " ++ source ++
    "\n  </article>\n</body>\n</html>"

/-- One list item of the navigation document (epub.ts `buildNavXhtml`). -/
def navItem (index : Nat) (article : ArticleInput) : String :=
  "      <li><a href=\"section-" ++ decimalOf (index + 1) ++ ".xhtml\">" ++
    escapeXml (jsOr article.title ("Article " ++ decimalOf (index + 1))) ++ "</a></li>"

/-- Model of `buildNavXhtml` in epub.ts. -/
def buildNavXhtml (articles : List ArticleInput) (lang : String) : String :=
  "<?xml version=\"1.0\" encoding=\"utf-8\"?>\n<!DOCTYPE html>\n<html xmlns=\"http://www.w3.org/1999/xhtml\" xmlns:epub=\"http://www.idpf.org/2007/ops\" lang=\"" ++
    escapeXml lang ++
    "\">\n<head>\n  <meta charset=\"utf-8\"/>\n  <title>Table of Contents</title>\n  <link rel=\"stylesheet\" href=\"styles.css\"/>\n</head>\n<body>\n  <nav epub:type=\"toc\">\n    <h1>Contents</h1>\n    <ol>\n" ++
    newlineJoin ((enumFrom 0 articles).map (fun p => navItem p.1 p.2)) ++
    "\n    </ol>\n  </nav>\n</body>\n</html>"

/-- One navPoint of the NCX document (epub.ts `buildNcx`). -/
def ncxNavPoint (index : Nat) (article : ArticleInput) : String :=
  "    <navPoint id=\"navPoint-" ++ decimalOf (index + 1) ++ "\" playOrder=\"" ++
    decimalOf (index + 1) ++ "\">\n      <navLabel><text>" ++
    escapeXml (jsOr article.title ("Article " ++ decimalOf (index + 1))) ++
    "</text></navLabel>\n      <content src=\"section-" ++ decimalOf (index + 1) ++
    ".xhtml\"/>\n    </navPoint>"

/-- Model of `buildNcx` in epub.ts. -/
def buildNcx (articles : List ArticleInput) (title uuid : String) : String :=
  "<?xml version=\"1.0\" encoding=\"UTF-8\"?>\n<!DOCTYPE ncx PUBLIC \"-//NISO//DTD ncx 2005-1//EN\" \"http://www.daisy.org/z3986/2005/ncx-2005-1.dtd\">\n<ncx xmlns=\"http://www.daisy.org/z3986/2005/ncx/\" version=\"2005-1\">\n  <head>\n    <meta name=\"dtb:uid\" content=\"urn:uuid:" ++
    uuid ++
    "\"/>\n    <meta name=\"dtb:depth\" content=\"1\"/>\n    <meta name=\"dtb:totalPageCount\" content=\"0\"/>\n    <meta name=\"dtb:maxPageNumber\" content=\"0\"/>\n  </head>\n  <docTitle><text>" ++
    escapeXml title ++ "</text></docTitle>\n  <navMap>\n" ++
    newlineJoin ((enumFrom 0 articles).map (fun p => ncxNavPoint p.1 p.2)) ++
    "\n  </navMap>\n</ncx>"

/-- One article manifest item of the package document (epub.ts `buildOpf`). -/
def manifestArticleItem (index : Nat) : String :=
  "    <item id=\"item-" ++ decimalOf (index + 1) ++ "\" href=\"section-" ++
    decimalOf (index + 1) ++ ".xhtml\" media-type=\"application/xhtml+xml\"/>"

/-- The filter `buildOpf` applies before emitting asset manifest items:
`asset && (asset.href || asset.path) && asset.mediaType` with string truthiness. -/
def opfAssetFilter (asset : EpubAsset) : Bool :=
  (asset.href ≠ "" || asset.path ≠ "") && asset.mediaType ≠ ""

/-- The `path.replace(/^OEBPS//, "")` fallback for an asset without `href`. -/
def dropOebps (path : String) : String :=
  if path.startsWith "OEBPS/" then path.drop 6 else path

/-- The manifest href `buildOpf` uses for an asset. -/
def opfAssetHref (asset : EpubAsset) : String :=
  if asset.href ≠ "" then asset.href else dropOebps asset.path

/-- One asset manifest item of the package document (epub.ts `buildOpf`). -/
def assetItem (index : Nat) (asset : EpubAsset) : String :=
  "    <item id=\"asset-" ++ decimalOf (index + 1) ++ "\" href=\"" ++
    escapeXml (opfAssetHref asset) ++ "\" media-type=\"" ++ escapeXml asset.mediaType ++ "\"/>"

/-- One spine itemref of the package document (epub.ts `buildOpf`). -/
def spineItem (index : Nat) : String :=
  "    <itemref idref=\"item-" ++ decimalOf (index + 1) ++ "\"/>"

/-- Model of `buildOpf` in epub.ts. -/
def buildOpf (title uuid lang : String) (articles : List ArticleInput)
    (assets : List EpubAsset) (modified : String) : String :=
  "<?xml version=\"1.0\" encoding=\"utf-8\"?>\n<package xmlns=\"http://www.idpf.org/2007/opf\" unique-identifier=\"bookid\" version=\"3.0\">\n  <metadata xmlns:dc=\"http://purl.org/dc/elements/1.1/\">\n    <dc:identifier id=\"bookid\">urn:uuid:" ++
    uuid ++ "</dc:identifier>\n    <dc:title>" ++ escapeXml title ++
    "</dc:title>\n    <dc:language>" ++ escapeXml lang ++
    "</dc:language>\n    <dc:creator>Tabs to EPUB</dc:creator>\n    <meta property=\"dcterms:modified\">" ++
    escapeXml modified ++
    "</meta>\n  </metadata>\n  <manifest>\n    <item id=\"nav\" href=\"nav.xhtml\" properties=\"nav\" media-type=\"application/xhtml+xml\"/>\n    <item id=\"ncx\" href=\"toc.ncx\" media-type=\"application/x-dtbncx+xml\"/>\n    <item id=\"css\" href=\"styles.css\" media-type=\"text/css\"/>\n" ++
    newlineJoin ((enumFrom 0 articles).map (fun p => manifestArticleItem p.1)) ++ "\n" ++
    newlineJoin ((enumFrom 0 (assets.filter opfAssetFilter)).map (fun p => assetItem p.1 p.2)) ++
    "\n  </manifest>\n  <spine toc=\"ncx\">\n" ++
    newlineJoin ((enumFrom 0 articles).map (fun p => spineItem p.1)) ++
    "\n  </spine>\n</package>"

/-- Model of `defaultCss` in epub.ts. -/
def defaultCss : String :=
  "body \x7b\n  font-family: \"Georgia\", \"Times New Roman\", serif;\n  line-height: 1.6;\n  margin: 5%;\n  color: #1f1f1f;\n\x7d\n\narticle h1 \x7b\n  font-size: 1.6em;\n  margin-bottom: 0.4em;\n\x7d\n\n.byline \x7b\n  font-style: italic;\n  color: #666;\n  margin-top: 0;\n\x7d\n\n.source \x7b\n  margin-top: 2em;\n  font-size: 0.9em;\n  color: #555;\n\x7d\n\nimg \x7b\n  max-width: 100%;\n  height: auto;\n\x7d\n\npre, code \x7b\n  font-family: \"Courier New\", monospace;\n  font-size: 0.9em;\n\x7d"

/-- The fixed `META-INF/container.xml` entry of `buildEpub`. -/
def containerXml : String :=
  "<?xml version=\"1.0\" encoding=\"UTF-8\"?>\n<container version=\"1.0\" xmlns=\"urn:oasis:names:tc:opendocument:xmlns:container\">\n  <rootfiles>\n    <rootfile full-path=\"OEBPS/content.opf\" media-type=\"application/oebps-package+xml\"/>\n  </rootfiles>\n</container>"

/-- ASCII lowercase letters and digits, the characters `slugify` keeps. -/
def isSlugChar (c : Char) : Bool :=
  (97 ≤ c.toNat && c.toNat ≤ 122) || (48 ≤ c.toNat && c.toNat ≤ 57)

/-- Collapse runs of dashes to a single dash. -/
def collapseDashes : List Char → List Char
  | [] => []
  | [c] => [c]
  | c :: d :: rest =>
    if c = '-' && d = '-' then collapseDashes (d :: rest)
    else c :: collapseDashes (d :: rest)

/-- Model of `slugify` in strings.ts: lowercase, runs of characters outside
`[a-z0-9]` become a single dash, edge dashes are stripped.  Mapping every
non-slug character to a dash and collapsing dash runs realizes the global
`[^a-z0-9]+` replacement exactly. -/
def slugify (value : String) : String :=
  let mapped := (lowerAscii value).toList.map (fun c => if isSlugChar c then c else '-')
  let collapsed := collapseDashes mapped
  let stripped :=
    ((collapsed.dropWhile (fun c => c = '-')).reverse.dropWhile (fun c => c = '-')).reverse
  if stripped.isEmpty then "untitled" else String.mk stripped

/-- Model of `safeFileName` in strings.ts (with the default fallback). -/
def safeFileName (title : String) : String :=
  (if title ≠ "" then slugify title else "tabs-to-epub") ++ ".epub"

/-- JS `String(num).padStart(2, "0")`. -/
def pad2 (n : Nat) : String :=
  if (decimalOf n).length < 2 then "0" ++ decimalOf n else decimalOf n

/-- Model of `formatTimestamp` in strings.ts. -/
def formatTimestamp (date : JsDate) : String :=
  decimalOf date.year ++ pad2 date.month ++ pad2 date.day ++ "-" ++
    pad2 date.hours ++ pad2 date.minutes ++ pad2 date.seconds

/-- The archive entry list `buildEpub` hands to `createZip` (epub.ts lines
167-204).  The asset guard `!asset || !asset.path || !asset.data` reduces to the
path truthiness test here: a `Uint8Array` is always truthy. -/
def buildEpubFiles (articles : List ArticleInput) (assets : List EpubAsset)
    (title uuid lang modified : String) : List ZipEntry :=
  [⟨"mimetype", .str "application/epub+zip"⟩,
   ⟨"META-INF/container.xml", .str containerXml⟩,
   ⟨"OEBPS/nav.xhtml", .str (buildNavXhtml articles lang)⟩,
   ⟨"OEBPS/toc.ncx", .str (buildNcx articles title uuid)⟩,
   ⟨"OEBPS/content.opf", .str (buildOpf title uuid lang articles assets modified)⟩,
   ⟨"OEBPS/styles.css", .str defaultCss⟩] ++
  (enumFrom 0 articles).map
    (fun p => ⟨"OEBPS/section-" ++ decimalOf (p.1 + 1) ++ ".xhtml",
               .str (buildArticleXhtml p.2 p.1 lang)⟩) ++
  (assets.filter (fun a => a.path ≠ "")).map (fun a => ⟨a.path, .bytes a.data⟩)

/-- The normalized article list of a `buildEpub` call. -/
def epubArticles (strip : String → String) (rawArticles : List ArticleInput) :
    List ArticleInput :=
  (enumFrom 0 rawArticles).map (fun p => normalizeArticle strip p.2 p.1)

/-- The book language a `buildEpub` call settles on. -/
def epubLang (options : BuildEpubOptions) (articles : List ArticleInput) : String :=
  jsOr options.language (jsOr (articles.getD 0 default).lang "en")

/-- The book title a `buildEpub` call settles on. -/
def epubTitle (options : BuildEpubOptions) (nowStamp : String)
    (articles : List ArticleInput) : String :=
  jsOr options.title (defaultTitle nowStamp articles)

/-- The book identifier a `buildEpub` call settles on. -/
def epubUuid (options : BuildEpubOptions) (genUuid : String) : String :=
  jsOr options.identifier genUuid

/-- Model of `buildEpub` in epub.ts.  Environment inputs are explicit: `strip`
is the `stripInteractive` regex pass (unused by any claim), `isoOf` the platform
`isoDateTime` rendering of a `Date`, `now` the current date, and `genUuid` the
value `randomUuid()` would have produced. -/
def buildEpub (strip : String → String) (isoOf : JsDate → String) (now : JsDate)
    (genUuid : String) (rawArticles : List ArticleInput) (options : BuildEpubOptions) :
    Except String BuildEpubResult :=
  match rawArticles with
  | [] => .error "No articles provided."
  | _ :: _ =>
    let articles := epubArticles strip rawArticles
    let lang := epubLang options articles
    let title := epubTitle options (formatTimestamp now) articles
    let uuid := epubUuid options genUuid
    let modifiedDate := options.modified.getD now
    let modified := isoOf modifiedDate
    let assets := options.assets.getD []
    let bytes := createZip (buildEpubFiles articles assets title uuid lang modified) modifiedDate
    let filename := jsOr options.filename
      (safeFileName (match articles with
        | [article] => article.title
        | _ => "tabs-" ++ formatTimestamp now))
    .ok ⟨bytes, filename⟩

/-- A markup string that starts and ends outside a tag and whose completed tag
bodies are exactly `tags`. -/
def EmitsTags (s : String) (tags : List String) : Prop :=
  tagsOfGo s.toList none = tags ∧ scanEnd s.toList none = none

theorem toList_append (a b : String) : (a ++ b).toList = a.toList ++ b.toList :=
  rfl

theorem emitsTags_append {a b : String} {ta tb : List String}
    (ha : EmitsTags a ta) (hb : EmitsTags b tb) : EmitsTags (a ++ b) (ta ++ tb) := by
  constructor
  · rw [toList_append, tagsOfGo_append, ha.2, ha.1, hb.1]
  · rw [toList_append, scanEnd_append, ha.2, hb.2]

theorem emitsTags_single {s : String} {pre body : List Char}
    (hdecomp : s.toList = pre ++ '<' :: (body ++ ['>'])) (hpre : NoAngle pre)
    (hbody : NoAngle body) : EmitsTags s [String.mk body] := by
  constructor
  · rw [hdecomp, tagsOfGo_append, tagsOfGo_noAngle pre hpre, scanEnd_noAngle_none pre hpre]
    rw [show tagsOfGo ('<' :: (body ++ ['>'])) none = tagsOfGo (body ++ ['>']) (some []) from by
      simp [tagsOfGo]]
    rw [tagsOfGo_append, tagsOfGo_noAngle body hbody, scanEnd_noAngle_some body hbody]
    simp [tagsOfGo]
  · rw [hdecomp, scanEnd_append, scanEnd_noAngle_none pre hpre]
    rw [show scanEnd ('<' :: (body ++ ['>'])) none = scanEnd (body ++ ['>']) (some []) from by
      simp [scanEnd]]
    rw [scanEnd_append, scanEnd_noAngle_some body hbody]
    simp [scanEnd]

theorem emitsTags_newlineJoin {α : Type} (f g : α → String) :
    ∀ (l : List α), (∀ x ∈ l, EmitsTags (f x) [g x]) →
      EmitsTags (newlineJoin (l.map f)) (l.map g) := by
  intro l
  induction l with
  | nil =>
    intro _
    exact ⟨rfl, rfl⟩
  | cons x rest ih =>
    intro h
    match rest with
    | [] =>
      simpa [newlineJoin] using h x (by simp)
    | y :: rest2 =>
      have hx := h x (by simp)
      have hrest := ih (fun z hz => h z (by simp [hz]))
      have hnl : EmitsTags "\n" [] := ⟨rfl, rfl⟩
      have := emitsTags_append (emitsTags_append hx hnl) hrest
      simpa [newlineJoin] using this

theorem noAngle_append {a b : List Char} (ha : NoAngle a) (hb : NoAngle b) :
    NoAngle (a ++ b) :=
  fun c hc => (List.mem_append.mp hc).elim (ha c) (hb c)

theorem mk_append (x : String) (l : List Char) :
    String.mk (x.toList ++ l) = x ++ String.mk l :=
  rfl

theorem mk_toList (s : String) : String.mk s.toList = s :=
  rfl

/-- The tag body an article manifest item contributes to the package document. -/
def articleItemTag (i : Nat) : String :=
  "item id=\"item-" ++ (decimalOf (i + 1) ++ ("\" href=\"section-" ++
    (decimalOf (i + 1) ++ ".xhtml\" media-type=\"application/xhtml+xml\"/")))

/-- The tag body a spine itemref contributes to the package document. -/
def spineItemTag (i : Nat) : String :=
  "itemref idref=\"item-" ++ (decimalOf (i + 1) ++ "\"/")

/-- The tag body an asset manifest item contributes to the package document. -/
def assetItemTag (i : Nat) (asset : EpubAsset) : String :=
  "item id=\"asset-" ++ (decimalOf (i + 1) ++ ("\" href=\"" ++
    (escapeXml (opfAssetHref asset) ++ ("\" media-type=\"" ++
    (escapeXml asset.mediaType ++ "\"/")))))

theorem manifestArticleItem_emits (i : Nat) :
    EmitsTags (manifestArticleItem i) [articleItemTag i] := by
  have hbody : NoAngle ("item id=\"item-".toList ++ ((decimalOf (i + 1)).toList ++
      ("\" href=\"section-".toList ++ ((decimalOf (i + 1)).toList ++
        ".xhtml\" media-type=\"application/xhtml+xml\"/".toList)))) := by
    refine noAngle_append (by decide) (noAngle_append (noAngle_decimalOf _)
      (noAngle_append (by decide) (noAngle_append (noAngle_decimalOf _) (by decide))))
  have hdecomp : (manifestArticleItem i).toList =
      "    ".toList ++ '<' :: (("item id=\"item-".toList ++ ((decimalOf (i + 1)).toList ++
        ("\" href=\"section-".toList ++ ((decimalOf (i + 1)).toList ++
          ".xhtml\" media-type=\"application/xhtml+xml\"/".toList)))) ++ ['>']) := by
    have h1 : "    <item id=\"item-".toList = "    ".toList ++ '<' :: "item id=\"item-".toList := by
      decide
    have h2 : ".xhtml\" media-type=\"application/xhtml+xml\"/>".toList =
        ".xhtml\" media-type=\"application/xhtml+xml\"/".toList ++ ['>'] := by
      decide
    simp [manifestArticleItem, toList_append, h1, h2]
  have h := emitsTags_single hdecomp (by decide) hbody
  simp only [mk_append, mk_toList] at h
  exact h

theorem spineItem_emits (i : Nat) :
    EmitsTags (spineItem i) [spineItemTag i] := by
  have hbody : NoAngle ("itemref idref=\"item-".toList ++ ((decimalOf (i + 1)).toList ++
      "\"/".toList)) := by
    refine noAngle_append (by decide) (noAngle_append (noAngle_decimalOf _) (by decide))
  have hdecomp : (spineItem i).toList =
      "    ".toList ++ '<' :: (("itemref idref=\"item-".toList ++ ((decimalOf (i + 1)).toList ++
        "\"/".toList)) ++ ['>']) := by
    have h1 : "    <itemref idref=\"item-".toList =
        "    ".toList ++ '<' :: "itemref idref=\"item-".toList := by
      decide
    have h2 : "\"/>".toList = "\"/".toList ++ ['>'] := by
      decide
    simp [spineItem, toList_append, h1, h2]
  have h := emitsTags_single hdecomp (by decide) hbody
  simp only [mk_append, mk_toList] at h
  exact h

theorem assetItem_emits (i : Nat) (asset : EpubAsset) :
    EmitsTags (assetItem i asset) [assetItemTag i asset] := by
  have hbody : NoAngle ("item id=\"asset-".toList ++ ((decimalOf (i + 1)).toList ++
      ("\" href=\"".toList ++ ((escapeXml (opfAssetHref asset)).toList ++
        ("\" media-type=\"".toList ++ ((escapeXml asset.mediaType).toList ++
          "\"/".toList)))))) := by
    refine noAngle_append (by decide) (noAngle_append (noAngle_decimalOf _)
      (noAngle_append (by decide) (noAngle_append (noAngle_escapeXml _)
        (noAngle_append (by decide) (noAngle_append (noAngle_escapeXml _) (by decide))))))
  have hdecomp : (assetItem i asset).toList =
      "    ".toList ++ '<' :: (("item id=\"asset-".toList ++ ((decimalOf (i + 1)).toList ++
        ("\" href=\"".toList ++ ((escapeXml (opfAssetHref asset)).toList ++
          ("\" media-type=\"".toList ++ ((escapeXml asset.mediaType).toList ++
            "\"/".toList)))))) ++ ['>']) := by
    have h1 : "    <item id=\"asset-".toList =
        "    ".toList ++ '<' :: "item id=\"asset-".toList := by
      decide
    have h2 : "\"/>".toList = "\"/".toList ++ ['>'] := by
      decide
    simp [assetItem, toList_append, h1, h2]
  have h := emitsTags_single hdecomp (by decide) hbody
  simp only [mk_append, mk_toList] at h
  exact h

theorem emitsTags_noAngle {s : String} (h : NoAngle s.toList) : EmitsTags s [] :=
  ⟨tagsOfGo_noAngle _ h none, scanEnd_noAngle_none _ h⟩

theorem emitsTags_congr {a b : String} {t : List String} (hab : a = b)
    (h : EmitsTags b t) : EmitsTags a t :=
  hab ▸ h

theorem emitsTags_pureTag (s body : String)
    (h : s.toList = '<' :: (body.toList ++ ['>'])) (hbody : NoAngle body.toList) :
    EmitsTags s [body] := by
  have hd : s.toList = [] ++ '<' :: (body.toList ++ ['>']) := by
    simpa using h
  have := emitsTags_single hd (by intro c hc; simp at hc) hbody
  simpa [mk_toList] using this

/-- The fixed tags that open the package document. -/
def opfHeadTags : List String :=
  ["?xml version=\"1.0\" encoding=\"utf-8\"?",
   "package xmlns=\"http://www.idpf.org/2007/opf\" unique-identifier=\"bookid\" version=\"3.0\"",
   "metadata xmlns:dc=\"http://purl.org/dc/elements/1.1/\"",
   "dc:identifier id=\"bookid\"", "/dc:identifier", "dc:title", "/dc:title",
   "dc:language", "/dc:language", "dc:creator", "/dc:creator",
   "meta property=\"dcterms:modified\"", "/meta", "/metadata", "manifest",
   "item id=\"nav\" href=\"nav.xhtml\" properties=\"nav\" media-type=\"application/xhtml+xml\"/",
   "item id=\"ncx\" href=\"toc.ncx\" media-type=\"application/x-dtbncx+xml\"/",
   "item id=\"css\" href=\"styles.css\" media-type=\"text/css\"/"]

theorem opfUnitXml : EmitsTags "<?xml version=\"1.0\" encoding=\"utf-8\"?>" ["?xml version=\"1.0\" encoding=\"utf-8\"?"] :=
  emitsTags_pureTag _ _ (by decide) (by decide)

theorem opfUnitPackage : EmitsTags "<package xmlns=\"http://www.idpf.org/2007/opf\" unique-identifier=\"bookid\" version=\"3.0\">" ["package xmlns=\"http://www.idpf.org/2007/opf\" unique-identifier=\"bookid\" version=\"3.0\""] :=
  emitsTags_pureTag _ _ (by decide) (by decide)

theorem opfUnitMetadata : EmitsTags "<metadata xmlns:dc=\"http://purl.org/dc/elements/1.1/\">" ["metadata xmlns:dc=\"http://purl.org/dc/elements/1.1/\""] :=
  emitsTags_pureTag _ _ (by decide) (by decide)

theorem opfUnitIdOpen : EmitsTags "<dc:identifier id=\"bookid\">" ["dc:identifier id=\"bookid\""] :=
  emitsTags_pureTag _ _ (by decide) (by decide)

theorem opfUnitIdClose : EmitsTags "</dc:identifier>" ["/dc:identifier"] :=
  emitsTags_pureTag _ _ (by decide) (by decide)

theorem opfUnitTitleOpen : EmitsTags "<dc:title>" ["dc:title"] :=
  emitsTags_pureTag _ _ (by decide) (by decide)

theorem opfUnitTitleClose : EmitsTags "</dc:title>" ["/dc:title"] :=
  emitsTags_pureTag _ _ (by decide) (by decide)

theorem opfUnitLangOpen : EmitsTags "<dc:language>" ["dc:language"] :=
  emitsTags_pureTag _ _ (by decide) (by decide)

theorem opfUnitLangClose : EmitsTags "</dc:language>" ["/dc:language"] :=
  emitsTags_pureTag _ _ (by decide) (by decide)

theorem opfUnitCreatorOpen : EmitsTags "<dc:creator>" ["dc:creator"] :=
  emitsTags_pureTag _ _ (by decide) (by decide)

theorem opfUnitCreatorClose : EmitsTags "</dc:creator>" ["/dc:creator"] :=
  emitsTags_pureTag _ _ (by decide) (by decide)

theorem opfUnitModOpen : EmitsTags "<meta property=\"dcterms:modified\">" ["meta property=\"dcterms:modified\""] :=
  emitsTags_pureTag _ _ (by decide) (by decide)

theorem opfUnitModClose : EmitsTags "</meta>" ["/meta"] :=
  emitsTags_pureTag _ _ (by decide) (by decide)

theorem opfUnitMetadataClose : EmitsTags "</metadata>" ["/metadata"] :=
  emitsTags_pureTag _ _ (by decide) (by decide)

theorem opfUnitManifestOpen : EmitsTags "<manifest>" ["manifest"] :=
  emitsTags_pureTag _ _ (by decide) (by decide)

theorem opfUnitNav : EmitsTags "<item id=\"nav\" href=\"nav.xhtml\" properties=\"nav\" media-type=\"application/xhtml+xml\"/>" ["item id=\"nav\" href=\"nav.xhtml\" properties=\"nav\" media-type=\"application/xhtml+xml\"/"] :=
  emitsTags_pureTag _ _ (by decide) (by decide)

theorem opfUnitNcx : EmitsTags "<item id=\"ncx\" href=\"toc.ncx\" media-type=\"application/x-dtbncx+xml\"/>" ["item id=\"ncx\" href=\"toc.ncx\" media-type=\"application/x-dtbncx+xml\"/"] :=
  emitsTags_pureTag _ _ (by decide) (by decide)

theorem opfUnitCss : EmitsTags "<item id=\"css\" href=\"styles.css\" media-type=\"text/css\"/>" ["item id=\"css\" href=\"styles.css\" media-type=\"text/css\"/"] :=
  emitsTags_pureTag _ _ (by decide) (by decide)

theorem opfUnitManifestClose : EmitsTags "</manifest>" ["/manifest"] :=
  emitsTags_pureTag _ _ (by decide) (by decide)

theorem opfUnitSpineOpen : EmitsTags "<spine toc=\"ncx\">" ["spine toc=\"ncx\""] :=
  emitsTags_pureTag _ _ (by decide) (by decide)

theorem opfUnitSpineClose : EmitsTags "</spine>" ["/spine"] :=
  emitsTags_pureTag _ _ (by decide) (by decide)

theorem opfUnitPackageClose : EmitsTags "</package>" ["/package"] :=
  emitsTags_pureTag _ _ (by decide) (by decide)

theorem opfWsNl : EmitsTags "\n" [] :=
  emitsTags_noAngle (by decide)

theorem opfWsNl2 : EmitsTags "\n  " [] :=
  emitsTags_noAngle (by decide)

theorem opfWsNl4 : EmitsTags "\n    " [] :=
  emitsTags_noAngle (by decide)

theorem opfWsUrn : EmitsTags "urn:uuid:" [] :=
  emitsTags_noAngle (by decide)

theorem opfWsCreator : EmitsTags "Tabs to EPUB" [] :=
  emitsTags_noAngle (by decide)

theorem opfSeg0 :
    EmitsTags "<?xml version=\"1.0\" encoding=\"utf-8\"?>\n<package xmlns=\"http://www.idpf.org/2007/opf\" unique-identifier=\"bookid\" version=\"3.0\">\n  <metadata xmlns:dc=\"http://purl.org/dc/elements/1.1/\">\n    <dc:identifier id=\"bookid\">urn:uuid:"
      ["?xml version=\"1.0\" encoding=\"utf-8\"?",
       "package xmlns=\"http://www.idpf.org/2007/opf\" unique-identifier=\"bookid\" version=\"3.0\"",
       "metadata xmlns:dc=\"http://purl.org/dc/elements/1.1/\"",
       "dc:identifier id=\"bookid\""] := by
  refine emitsTags_congr rfl ?_
  have h := emitsTags_append opfUnitXml (emitsTags_append opfWsNl
    (emitsTags_append opfUnitPackage (emitsTags_append opfWsNl2
      (emitsTags_append opfUnitMetadata (emitsTags_append opfWsNl4
        (emitsTags_append opfUnitIdOpen opfWsUrn))))))
  simpa using h

theorem opfSeg1 : EmitsTags "</dc:identifier>\n    <dc:title>" ["/dc:identifier", "dc:title"] := by
  refine emitsTags_congr rfl ?_
  have h := emitsTags_append opfUnitIdClose (emitsTags_append opfWsNl4 opfUnitTitleOpen)
  simpa using h

theorem opfSeg2 : EmitsTags "</dc:title>\n    <dc:language>" ["/dc:title", "dc:language"] := by
  refine emitsTags_congr rfl ?_
  have h := emitsTags_append opfUnitTitleClose (emitsTags_append opfWsNl4 opfUnitLangOpen)
  simpa using h

theorem opfSeg3 :
    EmitsTags "</dc:language>\n    <dc:creator>Tabs to EPUB</dc:creator>\n    <meta property=\"dcterms:modified\">"
      ["/dc:language", "dc:creator", "/dc:creator", "meta property=\"dcterms:modified\""] := by
  refine emitsTags_congr rfl ?_
  have h := emitsTags_append opfUnitLangClose (emitsTags_append opfWsNl4
    (emitsTags_append opfUnitCreatorOpen (emitsTags_append opfWsCreator
      (emitsTags_append opfUnitCreatorClose (emitsTags_append opfWsNl4 opfUnitModOpen)))))
  simpa using h

theorem opfSeg4 :
    EmitsTags "</meta>\n  </metadata>\n  <manifest>\n    <item id=\"nav\" href=\"nav.xhtml\" properties=\"nav\" media-type=\"application/xhtml+xml\"/>\n    <item id=\"ncx\" href=\"toc.ncx\" media-type=\"application/x-dtbncx+xml\"/>\n    <item id=\"css\" href=\"styles.css\" media-type=\"text/css\"/>\n"
      ["/meta", "/metadata", "manifest",
       "item id=\"nav\" href=\"nav.xhtml\" properties=\"nav\" media-type=\"application/xhtml+xml\"/",
       "item id=\"ncx\" href=\"toc.ncx\" media-type=\"application/x-dtbncx+xml\"/",
       "item id=\"css\" href=\"styles.css\" media-type=\"text/css\"/"] := by
  refine emitsTags_congr rfl ?_
  have h := emitsTags_append opfUnitModClose (emitsTags_append opfWsNl2
    (emitsTags_append opfUnitMetadataClose (emitsTags_append opfWsNl2
      (emitsTags_append opfUnitManifestOpen (emitsTags_append opfWsNl4
        (emitsTags_append opfUnitNav (emitsTags_append opfWsNl4
          (emitsTags_append opfUnitNcx (emitsTags_append opfWsNl4
            (emitsTags_append opfUnitCss opfWsNl))))))))))
  simpa using h

theorem opfSeg5 : EmitsTags "\n  </manifest>\n  <spine toc=\"ncx\">\n" ["/manifest", "spine toc=\"ncx\""] := by
  refine emitsTags_congr rfl ?_
  have h := emitsTags_append opfWsNl2 (emitsTags_append opfUnitManifestClose
    (emitsTags_append opfWsNl2 (emitsTags_append opfUnitSpineOpen opfWsNl)))
  simpa using h

theorem opfSeg6 : EmitsTags "\n  </spine>\n</package>" ["/spine", "/package"] := by
  refine emitsTags_congr rfl ?_
  have h := emitsTags_append opfWsNl2 (emitsTags_append opfUnitSpineClose
    (emitsTags_append opfWsNl opfUnitPackageClose))
  simpa using h

set_option maxHeartbeats 1000000 in
/-- Parse-back of the package document: its complete tag sequence is the fixed
head, one manifest item per input article in input order, one manifest item per
asset passing the manifest filter in filtered order, the manifest close and
spine open, one spine itemref per article in input order, and the closing tags. -/
theorem buildOpf_tags (title uuid lang : String) (articles : List ArticleInput)
    (assets : List EpubAsset) (modified : String) (huuid : NoAngle uuid.toList) :
    tagsOf (buildOpf title uuid lang articles assets modified) =
      opfHeadTags ++
      (enumFrom 0 articles).map (fun p => articleItemTag p.1) ++
      (enumFrom 0 (assets.filter opfAssetFilter)).map (fun p => assetItemTag p.1 p.2) ++
      ["/manifest", "spine toc=\"ncx\""] ++
      (enumFrom 0 articles).map (fun p => spineItemTag p.1) ++
      ["/spine", "/package"] := by
  have hUuid : EmitsTags uuid [] := emitsTags_noAngle huuid
  have hTitle : EmitsTags (escapeXml title) [] := emitsTags_noAngle (noAngle_escapeXml title)
  have hLang : EmitsTags (escapeXml lang) [] := emitsTags_noAngle (noAngle_escapeXml lang)
  have hMod : EmitsTags (escapeXml modified) [] := emitsTags_noAngle (noAngle_escapeXml modified)
  have hM : EmitsTags (newlineJoin ((enumFrom 0 articles).map (fun p => manifestArticleItem p.1)))
      ((enumFrom 0 articles).map (fun p => articleItemTag p.1)) := by
    refine emitsTags_newlineJoin _ _ _ ?_
    intro p hp
    exact manifestArticleItem_emits p.1
  have hA : EmitsTags
      (newlineJoin ((enumFrom 0 (assets.filter opfAssetFilter)).map (fun p => assetItem p.1 p.2)))
      ((enumFrom 0 (assets.filter opfAssetFilter)).map (fun p => assetItemTag p.1 p.2)) := by
    refine emitsTags_newlineJoin _ _ _ ?_
    intro p hp
    exact assetItem_emits p.1 p.2
  have hSP : EmitsTags (newlineJoin ((enumFrom 0 articles).map (fun p => spineItem p.1)))
      ((enumFrom 0 articles).map (fun p => spineItemTag p.1)) := by
    refine emitsTags_newlineJoin _ _ _ ?_
    intro p hp
    exact spineItem_emits p.1
  have h1 := emitsTags_append opfSeg0 hUuid
  have h2 := emitsTags_append h1 opfSeg1
  have h3 := emitsTags_append h2 hTitle
  have h4 := emitsTags_append h3 opfSeg2
  have h5 := emitsTags_append h4 hLang
  have h6 := emitsTags_append h5 opfSeg3
  have h7 := emitsTags_append h6 hMod
  have h8 := emitsTags_append h7 opfSeg4
  have h9 := emitsTags_append h8 hM
  have h10 := emitsTags_append h9 opfWsNl
  have h11 := emitsTags_append h10 hA
  have h12 := emitsTags_append h11 opfSeg5
  have h13 := emitsTags_append h12 hSP
  have h14 := emitsTags_append h13 opfSeg6
  rw [tagsOf, buildOpf]
  rw [h14.1]
  simp [opfHeadTags]

/-- C6.  Building from zero articles is a hard error with the explicit message;
building from exactly one article with no caller-supplied title titles the book
after that article: the chosen title equals the article title, and the built
archive bytes are the zip of entries whose package document carries that title
in its dc:title element. -/
theorem buildEpub_empty_error_and_single_title :
    (∀ (strip : String → String) (isoOf : JsDate → String) (now : JsDate) (genUuid : String)
       (options : BuildEpubOptions),
       buildEpub strip isoOf now genUuid [] options = .error "No articles provided.") ∧
    (∀ (strip : String → String) (isoOf : JsDate → String) (now : JsDate) (genUuid : String)
       (a : ArticleInput) (options : BuildEpubOptions),
       options.title = "" → a.title ≠ "" →
       epubTitle options (formatTimestamp now) (epubArticles strip [a]) = a.title ∧
       ∃ r, buildEpub strip isoOf now genUuid [a] options = .ok r ∧
         r.bytes = createZip
           (buildEpubFiles (epubArticles strip [a]) (options.assets.getD [])
             a.title (epubUuid options genUuid)
             (epubLang options (epubArticles strip [a])) (isoOf (options.modified.getD now)))
           (options.modified.getD now) ∧
         List.IsInfix ("<dc:title>" ++ escapeXml a.title ++ "</dc:title>").toList
           (buildOpf a.title (epubUuid options genUuid)
             (epubLang options (epubArticles strip [a])) (epubArticles strip [a])
             (options.assets.getD []) (isoOf (options.modified.getD now))).toList) := by
  constructor
  · intro strip isoOf now genUuid options
    rfl
  · intro strip isoOf now genUuid a options hNoTitle hATitle
    have htitle : epubTitle options (formatTimestamp now) (epubArticles strip [a]) = a.title := by
      rw [epubTitle, hNoTitle]
      have harts : epubArticles strip [a] = [normalizeArticle strip a 0] := rfl
      rw [harts]
      simp [jsOr, defaultTitle, normalizeArticle, hATitle]
    have hbuild : buildEpub strip isoOf now genUuid [a] options = .ok
        ⟨createZip (buildEpubFiles (epubArticles strip [a]) (options.assets.getD [])
            (epubTitle options (formatTimestamp now) (epubArticles strip [a]))
            (epubUuid options genUuid) (epubLang options (epubArticles strip [a]))
            (isoOf (options.modified.getD now))) (options.modified.getD now),
          jsOr options.filename (safeFileName (match epubArticles strip [a] with
            | [article] => article.title
            | _ => "tabs-" ++ formatTimestamp now))⟩ := rfl
    refine ⟨htitle, _, hbuild, ?_, ?_⟩
    · show createZip _ _ = _
      rw [htitle]
    · have hsplit1 : ("</dc:identifier>\n    <dc:title>").toList =
          "</dc:identifier>\n    ".toList ++ "<dc:title>".toList := by decide
      have hsplit2 : ("</dc:title>\n    <dc:language>").toList =
          "</dc:title>".toList ++ "\n    <dc:language>".toList := by decide
      have hmid : ("<dc:title>" ++ escapeXml a.title ++ "</dc:title>").toList <:+:
          ("</dc:identifier>\n    <dc:title>" ++
            (escapeXml a.title ++ "</dc:title>\n    <dc:language>")).toList := by
        refine ⟨"</dc:identifier>\n    ".toList, "\n    <dc:language>".toList, ?_⟩
        simp [toList_append, hsplit1, hsplit2]
      have hchain : ("</dc:identifier>\n    <dc:title>" ++
          (escapeXml a.title ++ "</dc:title>\n    <dc:language>")).toList <:+:
          (buildOpf a.title (epubUuid options genUuid)
            (epubLang options (epubArticles strip [a])) (epubArticles strip [a])
            (options.assets.getD []) (isoOf (options.modified.getD now))).toList := by
        refine ⟨("<?xml version=\"1.0\" encoding=\"utf-8\"?>\n<package xmlns=\"http://www.idpf.org/2007/opf\" unique-identifier=\"bookid\" version=\"3.0\">\n  <metadata xmlns:dc=\"http://purl.org/dc/elements/1.1/\">\n    <dc:identifier id=\"bookid\">urn:uuid:" ++
          epubUuid options genUuid).toList,
          ((escapeXml (epubLang options (epubArticles strip [a]))) ++
            ("</dc:language>\n    <dc:creator>Tabs to EPUB</dc:creator>\n    <meta property=\"dcterms:modified\">" ++
            (escapeXml (isoOf (options.modified.getD now)) ++
            ("</meta>\n  </metadata>\n  <manifest>\n    <item id=\"nav\" href=\"nav.xhtml\" properties=\"nav\" media-type=\"application/xhtml+xml\"/>\n    <item id=\"ncx\" href=\"toc.ncx\" media-type=\"application/x-dtbncx+xml\"/>\n    <item id=\"css\" href=\"styles.css\" media-type=\"text/css\"/>\n" ++
            (newlineJoin ((enumFrom 0 (epubArticles strip [a])).map (fun p => manifestArticleItem p.1)) ++
            ("\n" ++
            (newlineJoin ((enumFrom 0 ((options.assets.getD []).filter opfAssetFilter)).map
              (fun p => assetItem p.1 p.2)) ++
            ("\n  </manifest>\n  <spine toc=\"ncx\">\n" ++
            (newlineJoin ((enumFrom 0 (epubArticles strip [a])).map (fun p => spineItem p.1)) ++
            "\n  </spine>\n</package>"))))))))).toList, ?_⟩
        simp only [buildOpf, toList_append, List.append_assoc]
      exact hmid.trans hchain

/-- Witness for C6: a single titled article with no caller-supplied title. -/
theorem buildEpub_empty_error_and_single_title_witness :
    epubTitle {} (formatTimestamp ⟨2024, 1, 1, 0, 0, 0⟩)
        (epubArticles id [{title := "My Article"}]) = "My Article" :=
  (buildEpub_empty_error_and_single_title.2 id (fun _ => "2024-01-01T00:00:00Z")
    ⟨2024, 1, 1, 0, 0, 0⟩ "u" {title := "My Article"} {} rfl (by decide)).1

/-- C2 (amended).  For a nonempty article list and an asset list whose members
carry a nonempty path and media type (as the image embedder produces), building
succeeds, the archive bytes parse back via the local-header format to exactly
the generated entries, the first entry is literally `mimetype`, and the package
document's tag sequence has exactly one manifest item per article, one per
asset (in order), and the spine itemrefs in article input order. -/
theorem buildEpub_first_entry_and_opf (strip : String → String) (isoOf : JsDate → String)
    (now : JsDate) (genUuid : String) (first : ArticleInput) (rest : List ArticleInput)
    (options : BuildEpubOptions) (assets : List EpubAsset)
    (hassets : options.assets = some assets)
    (hvalid : ∀ a ∈ assets, a.path ≠ "" ∧ a.mediaType ≠ "")
    (huuid : NoAngle (epubUuid options genUuid).toList)
    (hn : ∀ e ∈ buildEpubFiles (epubArticles strip (first :: rest)) assets
        (epubTitle options (formatTimestamp now) (epubArticles strip (first :: rest)))
        (epubUuid options genUuid) (epubLang options (epubArticles strip (first :: rest)))
        (isoOf (options.modified.getD now)),
      (encodeString e.path).length < 65536)
    (hd : ∀ e ∈ buildEpubFiles (epubArticles strip (first :: rest)) assets
        (epubTitle options (formatTimestamp now) (epubArticles strip (first :: rest)))
        (epubUuid options genUuid) (epubLang options (epubArticles strip (first :: rest)))
        (isoOf (options.modified.getD now)),
      (ensureUint8 e.data).length < 4294967296) :
    ∃ r, buildEpub strip isoOf now genUuid (first :: rest) options = .ok r ∧
      readLocalFiles r.bytes =
        (buildEpubFiles (epubArticles strip (first :: rest)) assets
          (epubTitle options (formatTimestamp now) (epubArticles strip (first :: rest)))
          (epubUuid options genUuid) (epubLang options (epubArticles strip (first :: rest)))
          (isoOf (options.modified.getD now))).map
          (fun e => (encodeString e.path, ensureUint8 e.data)) ∧
      (readLocalFiles r.bytes).head? =
        some (encodeString "mimetype", encodeString "application/epub+zip") ∧
      tagsOf (buildOpf
          (epubTitle options (formatTimestamp now) (epubArticles strip (first :: rest)))
          (epubUuid options genUuid) (epubLang options (epubArticles strip (first :: rest)))
          (epubArticles strip (first :: rest)) assets (isoOf (options.modified.getD now))) =
        opfHeadTags ++
        (enumFrom 0 (epubArticles strip (first :: rest))).map (fun p => articleItemTag p.1) ++
        (enumFrom 0 assets).map (fun p => assetItemTag p.1 p.2) ++
        ["/manifest", "spine toc=\"ncx\""] ++
        (enumFrom 0 (epubArticles strip (first :: rest))).map (fun p => spineItemTag p.1) ++
        ["/spine", "/package"] := by
  have hfilter : assets.filter opfAssetFilter = assets := by
    refine List.filter_eq_self.mpr ?_
    intro a ha
    simp [opfAssetFilter, (hvalid a ha).1, (hvalid a ha).2]
  have hbuild : buildEpub strip isoOf now genUuid (first :: rest) options = .ok
      ⟨createZip (buildEpubFiles (epubArticles strip (first :: rest)) assets
          (epubTitle options (formatTimestamp now) (epubArticles strip (first :: rest)))
          (epubUuid options genUuid) (epubLang options (epubArticles strip (first :: rest)))
          (isoOf (options.modified.getD now))) (options.modified.getD now),
        jsOr options.filename (safeFileName (match epubArticles strip (first :: rest) with
          | [article] => article.title
          | _ => "tabs-" ++ formatTimestamp now))⟩ := by
    rw [buildEpub]
    rw [hassets]
    rfl
  have hround := createZip_roundTrip _ (options.modified.getD now) hn hd
  refine ⟨_, hbuild, hround, ?_, ?_⟩
  · rw [hround]
    rw [buildEpubFiles]
    rfl
  · rw [buildOpf_tags _ _ _ _ _ _ huuid, hfilter]

/-- A well-formed embedded asset, as the image embedder produces. -/
def demoAsset : EpubAsset :=
  ⟨"OEBPS/images/image-1.png", "images/image-1.png", "image/png", [1]⟩

/-- Build options carrying one well-formed asset. -/
def demoOptions : BuildEpubOptions :=
  { assets := some [demoAsset] }

set_option maxHeartbeats 4000000 in
set_option maxRecDepth 16384 in
/-- Witness for C2 at a concrete one-article, one-asset book. -/
theorem buildEpub_first_entry_and_opf_witness :
    ∃ r, buildEpub id (fun _ => "m") ⟨2024, 1, 1, 0, 0, 0⟩ "u" [{}] demoOptions = .ok r ∧
      readLocalFiles r.bytes =
        (buildEpubFiles (epubArticles id [{}]) [demoAsset]
          (epubTitle demoOptions (formatTimestamp ⟨2024, 1, 1, 0, 0, 0⟩) (epubArticles id [{}]))
          (epubUuid demoOptions "u") (epubLang demoOptions (epubArticles id [{}])) "m").map
          (fun e => (encodeString e.path, ensureUint8 e.data)) ∧
      (readLocalFiles r.bytes).head? =
        some (encodeString "mimetype", encodeString "application/epub+zip") ∧
      tagsOf (buildOpf
          (epubTitle demoOptions (formatTimestamp ⟨2024, 1, 1, 0, 0, 0⟩) (epubArticles id [{}]))
          (epubUuid demoOptions "u") (epubLang demoOptions (epubArticles id [{}]))
          (epubArticles id [{}]) [demoAsset] "m") =
        opfHeadTags ++
        (enumFrom 0 (epubArticles id [{}])).map (fun p => articleItemTag p.1) ++
        (enumFrom 0 [demoAsset]).map (fun p => assetItemTag p.1 p.2) ++
        ["/manifest", "spine toc=\"ncx\""] ++
        (enumFrom 0 (epubArticles id [{}])).map (fun p => spineItemTag p.1) ++
        ["/spine", "/package"] :=
  buildEpub_first_entry_and_opf id (fun _ => "m") ⟨2024, 1, 1, 0, 0, 0⟩ "u" {} [] demoOptions
    [demoAsset] rfl (by decide) (by decide) (by decide) (by decide)

/-- An asset with an empty media type: embedded in the archive, filtered out of
the manifest. -/
def badAsset : EpubAsset :=
  ⟨"OEBPS/images/image-1.png", "images/image-1.png", "", [1]⟩

set_option maxRecDepth 16384 in
/-- Counterexample to C2 as stated: with one embedded asset whose media type is
empty, the built archive embeds the asset (exactly one entry at its path) while
the package document carries zero asset manifest items, so the manifest does not
have one item per embedded asset. -/
theorem buildEpub_asset_manifest_counterexample :
    ((buildEpubFiles [{title := "A"}] [badAsset] "T" "u" "en" "m").filter
        (fun e => e.path = badAsset.path)).length = 1 ∧
    ((tagsOf (buildOpf "T" "u" "en" [{title := "A"}] [badAsset] "m")).filter
        (fun t => isPrefixSeq ("item id=" ++ "\"asset-").toList t.toList)).length = 0 := by
  constructor
  · decide
  · rw [buildOpf_tags "T" "u" "en" [{title := "A"}] [badAsset] "m" (by decide)]
    decide

/-- JS `String.prototype.trim` (ASCII whitespace; the URLs and header values
this code handles contain no exotic whitespace). -/
def trimAscii (s : String) : String :=
  String.mk (((s.toList.dropWhile Char.isWhitespace).reverse.dropWhile Char.isWhitespace).reverse)

/-- The pieces of a WHATWG `URL` that this code reads. -/
structure UrlParts where
  protocol : String
  hostname : String
  pathname : String
  query : String
deriving DecidableEq

/-- Scheme characters after the first (RFC 3986 / WHATWG). -/
def isSchemeChar (c : Char) : Bool :=
  c.isAlpha || c.isDigit || c = '+' || c = '-' || c = '.'

/-- Schemes the WHATWG parser treats as special (non-empty default path). -/
def isSpecialScheme (scheme : String) : Bool :=
  scheme = "http" || scheme = "https" || scheme = "ws" || scheme = "wss" ||
    scheme = "ftp" || scheme = "file"

/-- Model of the platform `new URL(url)` constructor for absolute URLs of the
shapes this extension handles (`scheme://host/path?query` and opaque-path
`scheme:rest`): scheme and host are lowercased, userinfo and port are dropped
from the host, the path of a special scheme defaults to `/`, percent-decoding
is not modelled (no call site feeds encoded input).  `none` models the thrown
`TypeError`. -/
def parseUrl (url : String) : Option UrlParts :=
  let cs := (trimAscii url).toList
  let scheme := cs.takeWhile (fun c => c ≠ ':')
  if scheme.length = cs.length ∨ scheme = [] then none
  else if ¬ ((scheme.headD 'a').isAlpha ∧ scheme.all isSchemeChar) then none
  else
    let schemeL := String.mk (scheme.map Char.toLower)
    let rest := cs.drop (scheme.length + 1)
    if isPrefixSeq "//".toList rest then
      let afterSlashes := rest.drop 2
      let authority := afterSlashes.takeWhile (fun c => c ≠ '/' ∧ c ≠ '?' ∧ c ≠ '#')
      let afterAuth := afterSlashes.drop authority.length
      let hostPart := (authority.reverse.takeWhile (fun c => c ≠ '@')).reverse
      let host := hostPart.takeWhile (fun c => c ≠ ':')
      let pathRaw := afterAuth.takeWhile (fun c => c ≠ '?' ∧ c ≠ '#')
      let pathname :=
        if pathRaw = [] ∧ isSpecialScheme schemeL then "/" else String.mk pathRaw
      let afterPath := afterAuth.drop pathRaw.length
      let query :=
        if isPrefixSeq "?".toList afterPath then
          String.mk ((afterPath.drop 1).takeWhile (fun c => c ≠ '#'))
        else ""
      some ⟨schemeL ++ ":", String.mk (host.map Char.toLower), pathname, query⟩
    else
      let pathRaw := rest.takeWhile (fun c => c ≠ '?' ∧ c ≠ '#')
      let afterPath := rest.drop pathRaw.length
      let query :=
        if isPrefixSeq "?".toList afterPath then
          String.mk ((afterPath.drop 1).takeWhile (fun c => c ≠ '#'))
        else ""
      some ⟨schemeL ++ ":", "", String.mk pathRaw, query⟩

/-- Model of `searchParams.get` on the query string: first `k=v` pair wins,
`null` is `none`. -/
def searchParamsGet (query name : String) : Option String :=
  let pairs := query.toList.splitOn '&' 
  let hit := pairs.find? (fun pair => pair.takeWhile (fun c => c ≠ '=') = name.toList)
  hit.map (fun pair => String.mk ((pair.dropWhile (fun c => c ≠ '=')).drop 1))

/-- Model of `parseContentType` in http.ts (also duplicated locally in pdf.ts):
text before the first semicolon, trimmed and lowercased; null and the empty
string give `""`. -/
def parseContentType (value : Option String) : String :=
  match value with
  | none => ""
  | some v =>
    if v = "" then ""
    else lowerAscii (trimAscii (String.mk (v.toList.takeWhile (fun c => c ≠ ';'))))

/-- Lookup in one of the image type tables; a missing key gives `""`, which is
falsy exactly like the `undefined` of a JS record lookup. -/
def lookupOr (table : List (String × String)) (key : String) : String :=
  match table.find? (fun p => p.1 = key) with
  | some p => p.2
  | none => ""

/-- `IMAGE_TYPE_TO_EXT` from image-assets.ts. -/
def IMAGE_TYPE_TO_EXT : List (String × String) :=
  [("image/jpeg", "jpg"), ("image/jpg", "jpg"), ("image/png", "png"), ("image/gif", "gif"),
   ("image/webp", "webp"), ("image/svg+xml", "svg"), ("image/avif", "avif"),
   ("image/bmp", "bmp"), ("image/x-icon", "ico"), ("image/vnd.microsoft.icon", "ico")]

/-- `IMAGE_EXT_TO_TYPE` from image-assets.ts. -/
def IMAGE_EXT_TO_TYPE : List (String × String) :=
  [("jpg", "image/jpeg"), ("jpeg", "image/jpeg"), ("png", "image/png"), ("gif", "image/gif"),
   ("webp", "image/webp"), ("svg", "image/svg+xml"), ("avif", "image/avif"),
   ("bmp", "image/bmp"), ("ico", "image/x-icon")]

/-- Model of `extensionFromUrl` in image-assets.ts: the lowercased `[a-z0-9]+`
run after a final dot of the URL pathname, else `""`. -/
def extensionFromUrl (url : String) : String :=
  match parseUrl url with
  | none => ""
  | some parts =>
    let rev := parts.pathname.toList.reverse
    let grp := rev.takeWhile (fun c => c.isAlpha || c.isDigit)
    if grp ≠ [] ∧ isPrefixSeq ".".toList (rev.drop grp.length) then
      String.mk ((grp.reverse).map Char.toLower)
    else ""

/-- Model of `ImageToken` from the extension types. -/
structure ImageToken where
  token : String
  src : String
deriving DecidableEq

/-- The fields of an extracted article that `embedImages` reads or writes; the
remaining fields of `ExtractedArticleWithTab` are copied through unchanged and
are omitted here. -/
structure ExtractedArticle where
  content : String := ""
  images : List ImageToken := []
deriving DecidableEq

/-- The network response `fetchImageBytes` sees on a successful `fetch`:
body bytes and the raw content-type header.  A failed or non-ok fetch (the
thrown error) is `none` in the oracle. -/
structure FetchedImage where
  buffer : List Nat
  contentTypeHeader : Option String
deriving DecidableEq

/-- Model of `fetchImageBytes` in image-assets.ts over a fetch oracle. -/
def fetchImageBytes (oracle : String → Option FetchedImage) (url : String) :
    Option (List Nat × String) :=
  (oracle url).map (fun r => (r.buffer, parseContentType r.contentTypeHeader))

/-- The guard `/^https?:/i.test(sourceUrl)` together with the `!sourceUrl`
falsiness test of image-assets.ts. -/
def isHttpLike (src : String) : Bool :=
  (src != "") && (isPrefixSeq "http:".toList (lowerAscii src).toList ||
    isPrefixSeq "https:".toList (lowerAscii src).toList)

/-- One planned placeholder of `embedImages` (image-assets.ts lines 57-72). -/
structure PlannedImage where
  articleIndex : Nat
  token : String
  sourceUrl : String
deriving DecidableEq, Inhabited

/-- The flattened placeholder list `plannedImages` of `embedImages`. -/
def plannedImagesOf (articles : List ExtractedArticle) : List PlannedImage :=
  ((enumFrom 0 articles).map (fun p =>
    p.2.images.map (fun image => ⟨p.1, image.token, image.src⟩))).flatten

/-- The extension / media-type resolution chain of the fetch mapper
(image-assets.ts lines 98-106) applied to a fetched content type. -/
def resolvedPair (sourceUrl contentType : String) : String × String :=
  let ext0 := jsOr (lookupOr IMAGE_TYPE_TO_EXT contentType) (extensionFromUrl sourceUrl)
  let mediaType0 := jsOr contentType (lookupOr IMAGE_EXT_TO_TYPE ext0)
  let mediaType1 :=
    if ext0 ≠ "" ∧ mediaType0 = "" then lookupOr IMAGE_EXT_TO_TYPE ext0 else mediaType0
  let ext1 :=
    if ext0 = "" ∧ mediaType1 ≠ "" then lookupOr IMAGE_TYPE_TO_EXT mediaType1 else ext0
  (ext1, mediaType1)

/-- The per-placeholder result of the fetch mapper: `some (buffer, ext,
mediaType)` on success, `none` when the placeholder degrades to the empty
string (non-http source, failed fetch, or unmappable type). -/
def imageOutcome (oracle : String → Option FetchedImage) (sourceUrl : String) :
    Option (List Nat × String × String) :=
  if isHttpLike sourceUrl = false then none
  else
    match fetchImageBytes oracle sourceUrl with
    | none => none
    | some (buffer, contentType) =>
      let pair := resolvedPair sourceUrl contentType
      if pair.1 ≠ "" ∧ pair.2 ≠ "" then some (buffer, pair.1, pair.2) else none

/-- The asset/replacement loop of `embedImages` (image-assets.ts lines
129-149): successful placeholders get sequentially numbered assets and their
href as replacement, failed ones get the empty string. -/
def embedGo :
    List (PlannedImage × Option (List Nat × String × String)) → Nat →
      List EpubAsset × List (Nat × String × String)
  | [], _ => ([], [])
  | (p, none) :: rest, imageIndex =>
    let r := embedGo rest imageIndex
    (r.1, (p.articleIndex, p.token, "") :: r.2)
  | (p, some (buffer, ext, mediaType)) :: rest, imageIndex =>
    let href := "images/image-" ++ decimalOf (imageIndex + 1) ++ "." ++ ext
    let r := embedGo rest (imageIndex + 1)
    (⟨"OEBPS/" ++ href, href, mediaType, buffer⟩ :: r.1,
     (p.articleIndex, p.token, href) :: r.2)

/-- JS `String.prototype.replaceAll` on non-empty patterns, with fuel (one unit
per step; `s.length` steps suffice for a non-empty pattern, and every call site
guards the pattern against emptiness). -/
def replaceAllGo (pat repl : List Char) : Nat → List Char → List Char
  | 0, s => s
  | _ + 1, [] => []
  | f + 1, c :: rest =>
    if isPrefixSeq pat (c :: rest) then repl ++ replaceAllGo pat repl f ((c :: rest).drop pat.length)
    else c :: replaceAllGo pat repl f rest

/-- JS `content.replaceAll(token, replacement)`. -/
def replaceAllStr (s pat repl : String) : String :=
  String.mk (replaceAllGo pat.toList repl.toList s.toList.length s.toList)

/-- JS `Map.set`: overwrite keeps the original position, a new key appends. -/
def mapSet (m : List (String × String)) (k v : String) : List (String × String) :=
  if m.any (fun p => p.1 = k) then m.map (fun p => if p.1 = k then (k, v) else p)
  else m ++ [(k, v)]

/-- The per-article replacement map of `embedImages` in Map iteration order. -/
def replacementsFor (articleIndex : Nat) (repls : List (Nat × String × String)) :
    List (String × String) :=
  (repls.filter (fun r => r.1 = articleIndex)).foldl (fun m r => mapSet m r.2.1 r.2.2) []

/-- The token-substitution loop over one article content (image-assets.ts
lines 156-161). -/
def applyReplacements (content : String) (m : List (String × String)) : String :=
  m.foldl (fun c p =>
    if p.1 ≠ "" ∧ containsSeq p.1.toList c.toList then replaceAllStr c p.1 p.2 else c) content

/-- The result of `embedImages`; `fetchedUrls` records the distinct URLs the
promise cache actually fetches over the network (each http(s) source URL once,
in first-encountered order). -/
structure EmbeddedResult where
  articles : List ExtractedArticle
  assets : List EpubAsset
  fetchedUrls : List String
deriving DecidableEq

/-- Insertion-order deduplication. -/
def dedupFirst (l : List String) : List String :=
  l.foldl (fun acc s => if s ∈ acc then acc else acc ++ [s]) []

/-- Model of `embedImages` in image-assets.ts over a deterministic fetch
oracle.  `mapWithConcurrency` writes results by original index, so the ordered
`map` is its behavior; the promise cache makes the network fetch happen at most
once per distinct URL, recorded in `fetchedUrls`. -/
def embedImages (oracle : String → Option FetchedImage)
    (articles : List ExtractedArticle) : EmbeddedResult :=
  let planned := plannedImagesOf articles
  let fetched := planned.map (fun p => (p, imageOutcome oracle p.sourceUrl))
  let er := embedGo fetched 0
  let updated := (enumFrom 0 articles).map (fun q =>
    { content := applyReplacements q.2.content (replacementsFor q.1 er.2),
      images := [] : ExtractedArticle })
  { articles := updated
    assets := er.1
    fetchedUrls := dedupFirst (planned.filterMap
      (fun p => if isHttpLike p.sourceUrl then some p.sourceUrl else none)) }

theorem dedupFirst_sub : ∀ (l acc : List String) (x : String),
    x ∈ l.foldl (fun acc s => if s ∈ acc then acc else acc ++ [s]) acc →
    x ∈ acc ∨ x ∈ l := by
  intro l
  induction l with
  | nil =>
    intro acc x hx
    exact Or.inl hx
  | cons s rest ih =>
    intro acc x hx
    rcases ih _ x hx with h | h
    · simp only at h
      by_cases hs : s ∈ acc
      · rw [if_pos hs] at h
        exact Or.inl h
      · rw [if_neg hs] at h
        rcases List.mem_append.mp h with h | h
        · exact Or.inl h
        · simp only [List.mem_singleton] at h
          subst h
          exact Or.inr (by simp)
    · exact Or.inr (by simp [h])

theorem dedupFirst_nodup_aux : ∀ (l acc : List String), acc.Nodup →
    (l.foldl (fun acc s => if s ∈ acc then acc else acc ++ [s]) acc).Nodup := by
  intro l
  induction l with
  | nil =>
    intro acc h
    exact h
  | cons s rest ih =>
    intro acc h
    show (List.foldl _ ((fun acc s => if s ∈ acc then acc else acc ++ [s]) acc s) rest).Nodup
    by_cases hs : s ∈ acc
    · simpa [hs] using ih acc h
    · simp only [if_neg hs]
      refine ih (acc ++ [s]) ?_
      simp [List.nodup_append, h, hs]

theorem embedGo_assets_length :
    ∀ (fetched : List (PlannedImage × Option (List Nat × String × String))) (k : Nat),
      (embedGo fetched k).1.length = (fetched.filter (fun q => q.2.isSome)).length := by
  intro fetched
  induction fetched with
  | nil => intro k; rfl
  | cons q rest ih =>
    intro k
    match q with
    | (p, none) => simpa [embedGo] using ih k
    | (p, some (buffer, ext, mediaType)) => simpa [embedGo] using ih (k + 1)

/-- C4 (amended).  The image embedder performs the network fetch at most once
per distinct URL (the recorded fetch set has no duplicates and only http(s)
URLs), but appends one Asset per successfully resolved placeholder: the asset
count equals the number of successful placeholders, not the number of distinct
URLs. -/
theorem embedImages_asset_per_placeholder (oracle : String → Option FetchedImage)
    (articles : List ExtractedArticle) :
    (embedImages oracle articles).fetchedUrls.Nodup ∧
    (∀ u ∈ (embedImages oracle articles).fetchedUrls, isHttpLike u = true) ∧
    (embedImages oracle articles).assets.length =
      ((plannedImagesOf articles).filter
        (fun p => (imageOutcome oracle p.sourceUrl).isSome)).length := by
  refine ⟨dedupFirst_nodup_aux _ [] (by simp), ?_, ?_⟩
  · intro u hu
    have hmem : u ∈ (plannedImagesOf articles).filterMap
        (fun p => if isHttpLike p.sourceUrl then some p.sourceUrl else none) := by
      rcases dedupFirst_sub _ [] u hu with h | h
      · simp at h
      · exact h
    obtain ⟨p, _, hp⟩ := List.mem_filterMap.mp hmem
    by_cases hh : isHttpLike p.sourceUrl
    · rw [if_pos hh] at hp
      cases hp
      exact hh
    · rw [if_neg hh] at hp
      cases hp
  · show (embedGo ((plannedImagesOf articles).map
        (fun p => (p, imageOutcome oracle p.sourceUrl))) 0).1.length = _
    rw [embedGo_assets_length]
    rw [List.filter_map]
    rw [List.length_map]
    rfl

/-- The two same-URL placeholders used to refute the one-asset-per-URL claim. -/
def dupArticle : ExtractedArticle :=
  { content := "<p><img src=\"tabstoepub-image:1\"/><img src=\"tabstoepub-image:2\"/></p>",
    images := [⟨"tabstoepub-image:1", "http://e/a.png"⟩,
               ⟨"tabstoepub-image:2", "http://e/a.png"⟩] }

/-- A fetch oracle that always serves a one-byte PNG. -/
def dupOracle : String → Option FetchedImage :=
  fun _ => some ⟨[1], some "image/png"⟩

/-- Counterexample to C4 as stated: two placeholders sharing one source URL are
fetched over the network once, yet two Assets are appended (one per
placeholder), not one per distinct URL. -/
theorem embedImages_dedup_counterexample :
    (embedImages dupOracle [dupArticle]).fetchedUrls = ["http://e/a.png"] ∧
    (embedImages dupOracle [dupArticle]).assets.length = 2 := by
  decide

theorem embedGo_repl_length :
    ∀ (fetched : List (PlannedImage × Option (List Nat × String × String))) (k : Nat),
      (embedGo fetched k).2.length = fetched.length := by
  intro fetched
  induction fetched with
  | nil => intro k; rfl
  | cons q rest ih =>
    intro k
    match q with
    | (p, none) => simpa [embedGo] using ih k
    | (p, some (buffer, ext, mediaType)) => simpa [embedGo] using ih (k + 1)

theorem embedGo_repl_getD :
    ∀ (fetched : List (PlannedImage × Option (List Nat × String × String))) (k i : Nat),
      i < fetched.length →
      (embedGo fetched k).2.getD i (0, "", "") =
        ((fetched.getD i default).1.articleIndex, (fetched.getD i default).1.token,
          match (fetched.getD i default).2 with
          | none => ""
          | some (_, ext, _) =>
            "images/image-" ++
              decimalOf (k + ((fetched.take i).filter (fun q => q.2.isSome)).length + 1) ++
              "." ++ ext) := by
  intro fetched
  induction fetched with
  | nil =>
    intro k i hi
    simp at hi
  | cons q rest ih =>
    intro k i hi
    match q with
    | (p, none) =>
      match i with
      | 0 => simp [embedGo]
      | i + 1 =>
        have := ih k i (by simpa using hi)
        simpa [embedGo] using this
    | (p, some (buffer, ext, mediaType)) =>
      match i with
      | 0 => simp [embedGo]
      | i + 1 =>
        have h := ih (k + 1) i (by simpa using hi)
        have harith : ∀ n : Nat, k + 1 + n = k + (n + 1) := by omega
        simp only [harith] at h
        simpa [embedGo, List.take_succ_cons, List.filter_cons, Option.isSome] using h

/-- C7.  Per placeholder: a non-http(s) source is degraded to the empty string
without any network fetch (the fetched-URL set holds only http(s) URLs), a
failed fetch or unmappable type also degrades to the empty string, a success is
substituted with the sequentially numbered archive-relative href; every
placeholder gets a replacement and every document is processed, so one failing
image never prevents the others. -/
theorem embedImages_per_placeholder (oracle : String → Option FetchedImage)
    (articles : List ExtractedArticle) :
    (embedImages oracle articles).articles.length = articles.length ∧
    (∀ u ∈ (embedImages oracle articles).fetchedUrls, isHttpLike u = true) ∧
    (∀ p ∈ plannedImagesOf articles,
      (imageOutcome oracle p.sourceUrl = none ↔
        (isHttpLike p.sourceUrl = false ∨ fetchImageBytes oracle p.sourceUrl = none ∨
          ∃ r, fetchImageBytes oracle p.sourceUrl = some r ∧
            ((resolvedPair p.sourceUrl r.2).1 = "" ∨ (resolvedPair p.sourceUrl r.2).2 = "")))) ∧
    (let planned := plannedImagesOf articles
     let fetched := planned.map (fun p => (p, imageOutcome oracle p.sourceUrl))
     (embedGo fetched 0).2.length = planned.length ∧
     ∀ i, i < planned.length →
       (embedGo fetched 0).2.getD i (0, "", "") =
         ((planned.getD i default).articleIndex, (planned.getD i default).token,
           match imageOutcome oracle (planned.getD i default).sourceUrl with
           | none => ""
           | some (_, ext, _) =>
             "images/image-" ++
               decimalOf
                 (((fetched.take i).filter (fun q => q.2.isSome)).length + 1) ++
               "." ++ ext)) := by
  refine ⟨?_, ?_, ?_, ?_, ?_⟩
  · show ((enumFrom 0 articles).map _).length = _
    rw [List.length_map]
    have : ∀ (k : Nat) (l : List ExtractedArticle), (enumFrom k l).length = l.length := by
      intro k l
      induction l generalizing k with
      | nil => rfl
      | cons a rest ih => simpa [enumFrom] using ih (k + 1)
    exact this 0 articles
  · intro u hu
    have hmem : u ∈ (plannedImagesOf articles).filterMap
        (fun p => if isHttpLike p.sourceUrl then some p.sourceUrl else none) := by
      rcases dedupFirst_sub _ [] u hu with h | h
      · simp at h
      · exact h
    obtain ⟨p, _, hp⟩ := List.mem_filterMap.mp hmem
    by_cases hh : isHttpLike p.sourceUrl
    · rw [if_pos hh] at hp
      cases hp
      exact hh
    · rw [if_neg hh] at hp
      cases hp
  · intro p _
    constructor
    · intro hnone
      rw [imageOutcome] at hnone
      split at hnone
      · rename_i hh
        exact Or.inl hh
      · rename_i hh
        split at hnone
        · rename_i hfetch
          exact Or.inr (Or.inl hfetch)
        · rename_i r buffer contentType hfetch
          refine Or.inr (Or.inr ⟨(buffer, contentType), hfetch, ?_⟩)
          by_cases hc : (resolvedPair p.sourceUrl contentType).1 ≠ "" ∧
              (resolvedPair p.sourceUrl contentType).2 ≠ ""
          · exfalso
            simp [hc] at hnone
          · by_cases h1 : (resolvedPair p.sourceUrl contentType).1 = ""
            · exact Or.inl h1
            · refine Or.inr ?_
              by_contra h2
              exact hc ⟨h1, h2⟩
    · intro h
      rw [imageOutcome]
      by_cases hh : isHttpLike p.sourceUrl = false
      · rw [if_pos hh]
      · rw [if_neg hh]
        rcases h with h1 | hfetch | ⟨r, hfetch, hbad⟩
        · exact absurd h1 hh
        · rw [hfetch]
        · rw [hfetch]
          obtain ⟨buffer, contentType⟩ := r
          have hcond : ¬((resolvedPair p.sourceUrl contentType).1 ≠ "" ∧
              (resolvedPair p.sourceUrl contentType).2 ≠ "") := by
            rcases hbad with hb | hb
            · intro hc
              exact hc.1 hb
            · intro hc
              exact hc.2 hb
          simp [hcond]
  · rw [embedGo_repl_length]
    simp
  · intro i hi
    have h := embedGo_repl_getD ((plannedImagesOf articles).map
      (fun p => (p, imageOutcome oracle p.sourceUrl))) 0 i (by simpa using hi)
    rw [h]
    have hget : ((plannedImagesOf articles).map
        (fun p => (p, imageOutcome oracle p.sourceUrl))).getD i default =
        ((plannedImagesOf articles).getD i default,
          imageOutcome oracle ((plannedImagesOf articles).getD i default).sourceUrl) := by
      rw [List.getD_eq_getElem?_getD, List.getElem?_map]
      rw [List.getElem?_eq_getElem (by simpa using hi)]
      rw [List.getD_eq_getElem?_getD, List.getElem?_eq_getElem hi]
      rfl
    rw [hget]
    simp only [Nat.zero_add]

/-- An article with one non-http placeholder and one http placeholder. -/
def mixedArticle : ExtractedArticle :=
  { content := "x",
    images := [⟨"t1", "data:image/png;base64,AA"⟩, ⟨"t2", "http://e/a.png"⟩] }

/-- Witness for C7: in `mixedArticle` the second placeholder (index 1) resolves
to the first numbered href even though the first placeholder is skipped. -/
theorem embedImages_per_placeholder_witness :
    (embedGo ((plannedImagesOf [mixedArticle]).map
        (fun p => (p, imageOutcome dupOracle p.sourceUrl))) 0).2.getD 1 (0, "", "") =
      (((plannedImagesOf [mixedArticle]).getD 1 default).articleIndex,
        ((plannedImagesOf [mixedArticle]).getD 1 default).token,
        match imageOutcome dupOracle
            ((plannedImagesOf [mixedArticle]).getD 1 default).sourceUrl with
        | none => ""
        | some (_, ext, _) =>
          "images/image-" ++
            decimalOf (((((plannedImagesOf [mixedArticle]).map
                (fun p => (p, imageOutcome dupOracle p.sourceUrl))).take 1).filter
                  (fun q => q.2.isSome)).length + 1) ++
            "." ++ ext) :=
  (embedImages_per_placeholder dupOracle [mixedArticle]).2.2.2.2 1 (by decide)

/-- Suffix test on characters. -/
def endsWithSeq (suffix s : List Char) : Bool :=
  isPrefixSeq suffix.reverse s.reverse

/-- Model of `isHttpUrl` in pdf.ts. -/
def isHttpUrl (url : String) : Bool :=
  match parseUrl url with
  | none => false
  | some parts => parts.protocol = "http:" || parts.protocol = "https:"

/-- Model of `isPdfPath` in pdf.ts: the URL parses and its pathname matches
`/\.pdf$/i`. -/
def isPdfPath (url : String) : Bool :=
  match parseUrl url with
  | none => false
  | some parts => endsWithSeq ".pdf".toList (lowerAscii parts.pathname).toList

/-- Model of `hasPdfMagicBytes` in pdf.ts (`%PDF-`). -/
def hasPdfMagicBytes (bytes : List Nat) : Bool :=
  match bytes with
  | b0 :: b1 :: b2 :: b3 :: b4 :: _ =>
    (b0 == 0x25) && (b1 == 0x50) && (b2 == 0x44) && (b3 == 0x46) && (b4 == 0x2d)
  | _ => false

/-- Model of `readMagicBytes` in pdf.ts: the first (up to) eight body bytes;
the chunked stream reader accumulates exactly this prefix. -/
def readMagicBytes (body : List Nat) : List Nat :=
  body.take 8

/-- Model of `extractPdfSourceFromViewerUrl` in pdf.ts. -/
def extractPdfSourceFromViewerUrl (url : String) : Option String :=
  match parseUrl url with
  | none => none
  | some parts =>
    if parts.protocol ≠ "chrome-extension:" then none
    else
      let srcParam := jsOr
        (match searchParamsGet parts.query "src" with
          | some v => v
          | none => "")
        (match searchParamsGet parts.query "file" with
          | some v => v
          | none => "")
      if srcParam = "" then none
      else
        let source := trimAscii srcParam
        if source = "" then none else some source

/-- Model of `TabLike` in pdf.ts (`""` for missing fields). -/
structure TabLike where
  url : String := ""
  pendingUrl : String := ""
  title : String := ""
deriving DecidableEq

/-- The five detection reasons of pdf.ts. -/
inductive PdfDetectionReason where
  | urlExtension
  | viewerSrc
  | contentType
  | magicBytes
  | notPdf
deriving DecidableEq

/-- Model of `PdfDetectionResult` in pdf.ts. -/
structure PdfDetectionResult where
  isPdf : Bool
  sourceUrl : Option String
  reason : PdfDetectionReason
deriving DecidableEq

/-- A response `detectPdfTab` sees from its fetch function. -/
structure PdfFetchResp where
  contentTypeHeader : Option String
  body : List Nat
deriving DecidableEq

/-- The candidate accumulation loop of `detectPdfTab` (pdf.ts lines 131-141):
each direct candidate is added once, followed by its embedded viewer source. -/
def addCandidates (acc : List String) (candidate : String) : List String :=
  let acc1 := if candidate ∈ acc then acc else acc ++ [candidate]
  match extractPdfSourceFromViewerUrl candidate with
  | some embedded => if embedded ∈ acc1 then acc1 else acc1 ++ [embedded]
  | none => acc1

/-- The optimistic no-network loop of `detectPdfTab` (pdf.ts lines 143-152). -/
def pdfUrlPhase (verifyUrlPath : Bool) : List String → Option PdfDetectionResult
  | [] => none
  | candidate :: rest =>
    if ¬verifyUrlPath ∧ isPdfPath candidate then
      some ⟨true, some candidate, .urlExtension⟩
    else
      match extractPdfSourceFromViewerUrl candidate with
      | some embedded =>
        if ¬verifyUrlPath ∧ isPdfPath embedded then
          some ⟨true, some embedded, .viewerSrc⟩
        else pdfUrlPhase verifyUrlPath rest
      | none => pdfUrlPhase verifyUrlPath rest

/-- One candidate of the network probe loop of `detectPdfTab` (pdf.ts lines
155-205): a HEAD request, then conditionally a ranged GET checking content type
and magic bytes.  The second component logs every fetch made as
`(url, isHead)`; a `none` oracle answer is the thrown, swallowed error. -/
def probeCandidate (oracle : String → Bool → Option PdfFetchResp) (candidate : String) :
    Option PdfDetectionResult × List (String × Bool) :=
  let headRes := oracle candidate true
  let headPdf :=
    match headRes with
    | none => false
    | some resp => parseContentType resp.contentTypeHeader = "application/pdf"
  if headPdf then (some ⟨true, some candidate, .contentType⟩, [(candidate, true)])
  else
    let shouldTryRange :=
      match headRes with
      | none => true
      | some resp =>
        let ct := parseContentType resp.contentTypeHeader
        if ct = "" then true
        else
          let isTextLike := isPrefixSeq "text/".toList ct.toList ||
            containsSeq "html".toList ct.toList || containsSeq "json".toList ct.toList ||
            containsSeq "xml".toList ct.toList
          let isGenericBinary := ct = "application/octet-stream" || ct = "binary/octet-stream"
          isGenericBinary || !isTextLike
    if ¬shouldTryRange then (none, [(candidate, true)])
    else
      match oracle candidate false with
      | none => (none, [(candidate, true), (candidate, false)])
      | some resp =>
        if parseContentType resp.contentTypeHeader = "application/pdf" then
          (some ⟨true, some candidate, .contentType⟩, [(candidate, true), (candidate, false)])
        else if hasPdfMagicBytes (readMagicBytes resp.body) then
          (some ⟨true, some candidate, .magicBytes⟩, [(candidate, true), (candidate, false)])
        else (none, [(candidate, true), (candidate, false)])

/-- The probe loop over the http(s) candidates, stopping at the first hit. -/
def probeLoop (oracle : String → Bool → Option PdfFetchResp) :
    List String → Option PdfDetectionResult × List (String × Bool)
  | [] => (none, [])
  | c :: rest =>
    let r := probeCandidate oracle c
    match r.1 with
    | some res => (some res, r.2)
    | none =>
      let rr := probeLoop oracle rest
      (rr.1, r.2 ++ rr.2)

/-- Model of `detectPdfTab` in pdf.ts, paired with the log of fetch calls it
performs. -/
def detectPdfTab (oracle : String → Bool → Option PdfFetchResp) (tab : TabLike)
    (verifyUrlPath : Bool) : PdfDetectionResult × List (String × Bool) :=
  let directCandidates := ([tab.pendingUrl, tab.url].map trimAscii).filter (fun s => s ≠ "")
  let candidates := directCandidates.foldl addCandidates []
  match pdfUrlPhase verifyUrlPath candidates with
  | some result => (result, [])
  | none =>
    let httpCandidates := candidates.filter (fun c => isHttpUrl c)
    let r := probeLoop oracle httpCandidates
    (r.1.getD ⟨false, none, .notPdf⟩, r.2)

set_option maxHeartbeats 4000000 in
/-- C9.  For a tab whose URL is exactly "https://x/y.pdf" with no pending URL,
default options answer PDF with reason url-extension and source equal to the
tab URL, and no fetch is ever performed (the fetch log is empty), regardless of
the fetch function and the tab title. -/
theorem detectPdfTab_url_extension (oracle : String → Bool → Option PdfFetchResp)
    (title : String) :
    detectPdfTab oracle ⟨"https://x/y.pdf", "", title⟩ false =
      (⟨true, some "https://x/y.pdf", .urlExtension⟩, []) := rfl

/-- JS `\s` for the ASCII range (space, tab, LF, CR, VT, FF); the inputs used
below contain no other whitespace. -/
def jsWhitespace (c : Char) : Bool :=
  c == ' ' || c == '\t' || c == '\n' || c == '\r' || c == Char.ofNat 11 || c == Char.ofNat 12

/-- `value.replace(/\s+/g, ' ')`: collapse every whitespace run to one space. -/
def collapseWs : List Char → List Char
  | [] => []
  | c :: cs =>
    let rest := collapseWs cs
    if jsWhitespace c then
      match rest with
      | ' ' :: _ => rest
      | _ => ' ' :: rest
    else c :: rest

/-- JS `String.prototype.trim` over the same whitespace class. -/
def jsTrimChars (cs : List Char) : List Char :=
  ((cs.dropWhile (fun c => jsWhitespace c)).reverse.dropWhile (fun c => jsWhitespace c)).reverse

/-- Model of `normalizeText` in content-extract.ts. -/
def normalizeText (s : String) : String :=
  String.mk (jsTrimChars (collapseWs s.toList))

/-- A DOM node as content-extract.ts sees it: text, or an element with
lower-cased tag name, attribute list (lower-cased names, document order) and
children.  Comments never occur in the restricted inputs considered here. -/
inductive DomNode where
  | text (s : String)
  | elem (tag : String) (attrs : List (String × String)) (children : List DomNode)

def tagOf : DomNode → String
  | .text _ => ""
  | .elem t _ _ => t

def attrsOf : DomNode → List (String × String)
  | .text _ => []
  | .elem _ a _ => a

def childrenOf : DomNode → List DomNode
  | .text _ => []
  | .elem _ _ cs => cs

/-- `getAttribute`: the first attribute with the given (lower-case) name. -/
def getAttr (attrs : List (String × String)) (name : String) : Option String :=
  (attrs.find? (fun nv => nv.1 == name)).map (fun nv => nv.2)

/-- `node.getAttribute(name) || ''`. -/
def getAttrD (n : DomNode) (name : String) : String :=
  match getAttr (attrsOf n) name with
  | some v => v
  | none => ""

/-- The HTML void elements (`VOID_ELEMENTS` in content-extract.ts matches the
WHATWG list used by the parser and serializer). -/
def VOID_ELEMENTS : List String :=
  ["area", "base", "br", "col", "embed", "hr", "img", "input", "link", "meta",
   "param", "source", "track", "wbr"]

/-- Modelled from the spec: HTML character-reference decoding restricted to
the five named/numeric references the serializers emit. -/
def decodeEntities : Nat → List Char → List Char
  | 0, _ => []
  | _ + 1, [] => []
  | f + 1, '&' :: cs =>
    if isPrefixSeq "amp;".toList cs then '&' :: decodeEntities f (cs.drop 4)
    else if isPrefixSeq "lt;".toList cs then '<' :: decodeEntities f (cs.drop 3)
    else if isPrefixSeq "gt;".toList cs then '>' :: decodeEntities f (cs.drop 3)
    else if isPrefixSeq "quot;".toList cs then '"' :: decodeEntities f (cs.drop 5)
    else if isPrefixSeq "#39;".toList cs then Char.ofNat 39 :: decodeEntities f (cs.drop 4)
    else '&' :: decodeEntities f cs
  | f + 1, c :: cs => c :: decodeEntities f cs

def isNameChar (c : Char) : Bool :=
  c.isAlpha || c.isDigit

def isAttrNameChar (c : Char) : Bool :=
  c.isAlpha || c.isDigit || c == '-' || c == '_' || c == ':'

/-- Modelled from the spec: attribute-list scanning of the HTML tokenizer,
restricted to double-quoted, unquoted and bare (boolean) attributes.  Returns
the attributes and the input just after the closing `>`; a `/` before `>` is
consumed and ignored, as the HTML parser does for non-foreign content. -/
def lexAttrs : Nat → List Char → List (String × String) × List Char
  | 0, cs => ([], cs)
  | f + 1, cs =>
    let cs1 := cs.dropWhile (fun c => jsWhitespace c)
    match cs1 with
    | [] => ([], [])
    | '>' :: rest => ([], rest)
    | '/' :: rest =>
      (match rest with
        | '>' :: r => ([], r)
        | _ => lexAttrs f rest)
    | _ =>
      let name := cs1.takeWhile (fun c => isAttrNameChar c)
      if name = [] then lexAttrs f (cs1.drop 1)
      else
        let cs2 := (cs1.dropWhile (fun c => isAttrNameChar c)).dropWhile (fun c => jsWhitespace c)
        match cs2 with
        | '=' :: cs3 =>
          let cs4 := cs3.dropWhile (fun c => jsWhitespace c)
          (match cs4 with
            | '"' :: cs5 =>
              let v := cs5.takeWhile (fun c => c != '"')
              let cs6 := (cs5.dropWhile (fun c => c != '"')).drop 1
              let r := lexAttrs f cs6
              ((String.mk (name.map Char.toLower), String.mk (decodeEntities f v)) :: r.1, r.2)
            | _ =>
              let v := cs4.takeWhile (fun c => !(jsWhitespace c || c == '>'))
              let cs5 := cs4.dropWhile (fun c => !(jsWhitespace c || c == '>'))
              let r := lexAttrs f cs5
              ((String.mk (name.map Char.toLower), String.mk (decodeEntities f v)) :: r.1, r.2))
        | _ =>
          let r := lexAttrs f cs2
          ((String.mk (name.map Char.toLower), "") :: r.1, r.2)

/-- A token of the restricted HTML tokenizer. -/
inductive HtmlTok where
  | tOpen (tag : String) (attrs : List (String × String))
  | tClose (tag : String)
  | tText (s : String)

/-- Modelled from the spec: the HTML tokenizer restricted to start tags,
end tags and character data (no comments, doctypes or CDATA, which the inputs
considered here never contain). -/
def lexHtml : Nat → List Char → List HtmlTok
  | 0, _ => []
  | _ + 1, [] => []
  | f + 1, '<' :: cs =>
    match cs with
    | '/' :: cs2 =>
      let name := (cs2.takeWhile (fun c => c != '>')).takeWhile (fun c => isNameChar c)
      let rest := (cs2.dropWhile (fun c => c != '>')).drop 1
      .tClose (String.mk (name.map Char.toLower)) :: lexHtml f rest
    | _ =>
      let name := cs.takeWhile (fun c => isNameChar c)
      if name = [] then .tText "<" :: lexHtml f cs
      else
        let r := lexAttrs f (cs.dropWhile (fun c => isNameChar c))
        .tOpen (String.mk (name.map Char.toLower)) r.1 :: lexHtml f r.2
  | f + 1, cs =>
    let chunk := cs.takeWhile (fun c => c != '<')
    let rest := cs.dropWhile (fun c => c != '<')
    .tText (String.mk (decodeEntities f chunk)) :: lexHtml f rest

/-- An open element awaiting its end tag: tag, attributes, children so far. -/
abbrev OpenFrame := String × List (String × String) × List DomNode

/-- Append a finished node to the innermost open element (or to the top
level). -/
def pAdd (st : List OpenFrame × List DomNode) (n : DomNode) : List OpenFrame × List DomNode :=
  match st.1 with
  | [] => ([], st.2 ++ [n])
  | (t, a, cs) :: rest => ((t, a, cs ++ [n]) :: rest, st.2)

/-- Modelled from the spec: tree construction restricted to well-formed
markup.  Void elements never take children; a `/` on a non-void start tag is
ignored (as in HTML); a mismatched end tag is dropped. -/
def pStep (st : List OpenFrame × List DomNode) (tok : HtmlTok) : List OpenFrame × List DomNode :=
  match tok with
  | .tText s => pAdd st (.text s)
  | .tOpen t a =>
    if VOID_ELEMENTS.contains t then pAdd st (.elem t a [])
    else ((t, a, []) :: st.1, st.2)
  | .tClose t =>
    match st.1 with
    | [] => st
    | (t0, a0, cs) :: rest =>
      if t0 = t then pAdd (rest, st.2) (.elem t0 a0 cs) else st

/-- Modelled from the spec: `new DOMParser().parseFromString(html,
'text/html')` on body-content fragments; the result is `doc.body`'s child
list.  Elements still open at end of input are closed implicitly. -/
def parseHtml (html : String) : List DomNode :=
  let st := (lexHtml (html.toList.length + 1) html.toList).foldl pStep ([], [])
  let finalNode := st.1.foldl
    (fun carry fr =>
      some (DomNode.elem fr.1 fr.2.1 (fr.2.2 ++ (match carry with
        | some n => [n]
        | none => []))))
    (none : Option DomNode)
  match finalNode with
  | some n => st.2 ++ [n]
  | none => st.2

def escapeHtmlText (s : String) : String :=
  String.join (s.toList.map (fun c =>
    if c = '&' then "&amp;"
    else if c = '<' then "&lt;"
    else if c = '>' then "&gt;"
    else String.mk [c]))

def escapeAttrVal (s : String) : String :=
  String.join (s.toList.map (fun c =>
    if c = '&' then "&amp;"
    else if c = '"' then "&quot;"
    else String.mk [c]))

/-- Modelled from the spec: the HTML fragment serializer behind `innerHTML`
(text escaped, attributes double-quoted, void elements without end tags). -/
def innerHTMLF : Nat → List DomNode → String
  | 0, _ => ""
  | f + 1, ns => ns.foldr (fun n acc =>
      (match n with
        | .text s => escapeHtmlText s
        | .elem t a cs =>
          let attrsStr := a.foldr (fun nv acc2 => " " ++ nv.1 ++ "=" ++ "\"" ++ escapeAttrVal nv.2 ++ "\"" ++ acc2) ""
          if VOID_ELEMENTS.contains t then "<" ++ t ++ attrsStr ++ ">"
          else "<" ++ t ++ attrsStr ++ ">" ++ innerHTMLF f cs ++ "</" ++ t ++ ">") ++ acc) ""

/-- `REMOVE_SELECTORS` in content-extract.ts. -/
def REMOVE_SELECTORS : List String :=
  ["script", "style", "iframe", "dialog", "form", "input", "button", "select",
   "textarea", "video", "audio", "canvas", "svg", "math", "object", "embed", "noscript"]

/-- The `REMOVE_SELECTORS` removal pass of `sanitizeContent`: every element
with a listed tag is removed with its subtree (sequential per-selector removal
leaves exactly the nodes with no listed-tag ancestor-or-self).  Fuel bounds
the recursion depth; callers pass a bound exceeding the tree depth. -/
def removeSelectorsF : Nat → List DomNode → List DomNode
  | 0, _ => []
  | f + 1, ns => ns.foldr (fun n acc =>
      match n with
      | .text s => .text s :: acc
      | .elem t a cs =>
        if REMOVE_SELECTORS.contains t then acc
        else .elem t a (removeSelectorsF f cs) :: acc) []

/-- The per-attribute action of the attribute-cleanup pass of
`sanitizeContent`: `on*` and `style` attributes are removed, a
`javascript:` href becomes `#`, a `javascript:` src is removed (attribute
names are already lower-case in the parsed tree). -/
def cleanAttr1 (nv : String × String) : Option (String × String) :=
  if isPrefixSeq "on".toList nv.1.toList = true ∨ nv.1 = "style" then none
  else if nv.1 = "href" ∧ isPrefixSeq "javascript:".toList (lowerAscii nv.2).toList = true then
    some (nv.1, "#")
  else if nv.1 = "src" ∧ isPrefixSeq "javascript:".toList (lowerAscii nv.2).toList = true then none
  else some nv

def cleanAttrs (attrs : List (String × String)) : List (String × String) :=
  attrs.filterMap cleanAttr1

/-- The attribute-cleanup pass applied to every element of the tree. -/
def attrCleanF : Nat → List DomNode → List DomNode
  | 0, _ => []
  | f + 1, ns => ns.foldr (fun n acc =>
      match n with
      | .text s => .text s :: acc
      | .elem t a cs => .elem t (cleanAttrs a) (attrCleanF f cs) :: acc) []

/-- Model of `absolutizeAttribute` in content-extract.ts; `resolve v base`
stands for `new URL(v, base).href` (`none` when the constructor throws). -/
def absolutizeAttr (resolve : String → String → Option String) (baseUrl attrName : String)
    (attrs : List (String × String)) : List (String × String) :=
  match getAttr attrs attrName with
  | none => attrs
  | some v =>
    if v = "" then attrs
    else if isPrefixSeq "data:".toList v.toList = true ∨ isPrefixSeq "mailto:".toList v.toList = true ∨
        isPrefixSeq "tel:".toList v.toList = true then attrs
    else
      match resolve v baseUrl with
      | none => attrs
      | some abs => attrs.map (fun nv => if nv.1 = attrName then (nv.1, abs) else nv)

/-- The `a[href]` / `img[src]` absolutization pass of `sanitizeContent`. -/
def absolutizeF (resolve : String → String → Option String) (baseUrl : String) :
    Nat → List DomNode → List DomNode
  | 0, _ => []
  | f + 1, ns => ns.foldr (fun n acc =>
      match n with
      | .text s => .text s :: acc
      | .elem t a cs =>
        let a2 :=
          if t = "a" then absolutizeAttr resolve baseUrl "href" a
          else if t = "img" then absolutizeAttr resolve baseUrl "src" a
          else a
        .elem t a2 (absolutizeF resolve baseUrl f cs) :: acc) []

/-- `node.textContent`: the concatenation of all descendant text. -/
def textContentF : Nat → List DomNode → String
  | 0, _ => ""
  | f + 1, ns => ns.foldr (fun n acc =>
      (match n with
        | .text s => s
        | .elem _ _ cs => textContentF f cs) ++ acc) ""

/-- All element descendants in document (pre-) order, as
`querySelectorAll('*')` enumerates them. -/
def descElemsF : Nat → List DomNode → List DomNode
  | 0, _ => []
  | f + 1, ns => ns.foldr (fun n acc =>
      match n with
      | .text _ => acc
      | .elem t a cs => .elem t a cs :: (descElemsF f cs ++ acc)) []

/-- The paths (child-index lists) of all element descendants, pre-order. -/
def elemPathsF : Nat → List DomNode → List (List Nat)
  | 0, _ => []
  | f + 1, ns => (enumFrom 0 ns).foldr (fun p acc =>
      match p.2 with
      | .text _ => acc
      | .elem _ _ cs => [p.1] :: ((elemPathsF f cs).map (fun q => p.1 :: q) ++ acc)) []

/-- The node a path addresses (child indices from the given root). -/
def nodeAtF : Nat → DomNode → List Nat → Option DomNode
  | _, n, [] => some n
  | 0, _, _ :: _ => none
  | _ + 1, .text _, _ :: _ => none
  | f + 1, .elem _ _ cs, i :: rest =>
    match cs[i]? with
    | some c => nodeAtF f c rest
    | none => none

/-- Model of `isLinkHeavy` in content-extract.ts.  The float density
comparisons `density > 0.6 / 0.3 / 0.2` are taken exactly over rationals; the
concrete inputs used below are far from these thresholds. -/
def isLinkHeavyN (f : Nat) (n : DomNode) : Bool :=
  let tag := tagOf n
  if tag = "article" ∨ tag = "main" ∨ tag = "body" then false
  else
    let text := normalizeText (textContentF f (childrenOf n))
    let links := (descElemsF f (childrenOf n)).filter (fun m => tagOf m == "a")
    if links.length < 3 then false
    else
      let linkTextLength := (links.map (fun m => (normalizeText (textContentF f (childrenOf m))).length)).foldl (· + ·) 0
      if text.length = 0 then true
      else if 10 * linkTextLength > 6 * text.length ∧ text.length < 1000 then true
      else if (tag = "ul" ∨ tag = "ol") ∧ 10 * linkTextLength > 3 * text.length ∧ text.length < 1500 then true
      else if links.length ≥ 8 ∧ 10 * linkTextLength > 2 * text.length ∧ text.length < 2000 then true
      else false

/-- `BOILERPLATE_ROLE` in content-extract.ts. -/
def BOILERPLATE_ROLE : List String :=
  ["navigation", "banner", "contentinfo", "complementary", "dialog", "alertdialog"]

/-- The alternatives of `BOILERPLATE_ARIA_RE`; the unanchored regex test is
case-insensitive substring search for any of them. -/
def ARIA_KEYWORDS : List String :=
  ["navigation", "nav", "breadcrumb", "share", "social", "related", "advert",
   "sponsor", "promo", "newsletter", "subscribe", "comment", "consent",
   "privacy", "cookie", "preference", "optout"]

/-- The alternatives of `BOILERPLATE_CLASS_RE` (`ads?` expanded to `ad`,
`ads`). -/
def CLASS_KEYWORDS : List String :=
  ["nav", "navbar", "subnav", "menu", "header", "footer", "related", "recirc",
   "recirculation", "promo", "sponsor", "advert", "adslot", "ad", "ads",
   "newsletter", "subscribe", "social", "share", "comment", "comments",
   "breadcrumb", "cookie", "consent", "privacy", "preference", "optout",
   "gdpr", "onetrust", "outbrain", "taboola", "recommend", "recommended",
   "bottom-sheet", "bottomsheet", "slug"]

def containsAnyCI (kws : List String) (s : String) : Bool :=
  kws.any (fun k => containsSeq k.toList (lowerAscii s).toList)

def isDelimChar (c : Char) : Bool :=
  jsWhitespace c || c == '_' || c == '-'

/-- `BOILERPLATE_CLASS_RE.test`: some keyword occurs delimited by start/end or
`[\s_-]` on both sides (case-insensitive). -/
def delimitedAny (kws : List String) (s : String) : Bool :=
  let cs := (lowerAscii s).toList
  (List.range (cs.length + 1)).any (fun i => kws.any (fun k =>
    isPrefixSeq k.toList (cs.drop i) &&
    (i == 0 || isDelimChar (cs.getD (i - 1) ' ')) &&
    (i + k.toList.length == cs.length || isDelimChar (cs.getD (i + k.toList.length) ' '))))

/-- Model of `isBoilerplateNode` in content-extract.ts. -/
def isBoilerplateNodeN (n : DomNode) : Bool :=
  let tag := tagOf n
  if tag = "article" ∨ tag = "main" ∨ tag = "body" then false
  else if tag = "nav" ∨ tag = "header" ∨ tag = "footer" ∨ tag = "aside" then true
  else
    let role := lowerAscii (getAttrD n "role")
    if role ≠ "" ∧ BOILERPLATE_ROLE.contains role then true
    else
      let ariaLabel := getAttrD n "aria-label"
      if ariaLabel ≠ "" ∧ containsAnyCI ARIA_KEYWORDS ariaLabel then true
      else
        let id := getAttrD n "id"
        if id ≠ "" ∧ delimitedAny CLASS_KEYWORDS id then true
        else
          let cls := getAttrD n "class"
          if cls ≠ "" ∧ delimitedAny CLASS_KEYWORDS cls then true
          else
            let du := getAttrD n "data-uri"
            if du ≠ "" ∧ delimitedAny CLASS_KEYWORDS du then true
            else false

/-- The kinds `getBoilerplateTextKind` distinguishes. -/
inductive BoilerplateTextKind where
  | generic
  | image

/-- The full-match set of `BOILERPLATE_TEXT_RE` over whitespace-normalized
text (each `\s*` matches one space or nothing there), lower-cased. -/
def GENERIC_BOILERPLATE_TEXTS : List String :=
  ["advertisement", "advertisement skip advertisement",
   "advertisement skipadvertisement", "advertisementskip advertisement",
   "advertisementskipadvertisement", "skip advertisement", "skipadvertisement",
   "related content", "sponsored", "sponsored content", "sponsoredcontent",
   "paid post", "recommended for you"]

/-- Model of `getBoilerplateTextKind` in content-extract.ts. -/
def getBoilerplateTextKindN (f : Nat) (n : DomNode) : Option BoilerplateTextKind :=
  let text := normalizeText (textContentF f (childrenOf n))
  if text = "" ∨ text.length > 140 then none
  else if lowerAscii text = "image" then some .image
  else if GENERIC_BOILERPLATE_TEXTS.contains (lowerAscii text) then some .generic
  else none

/-- Model of `findBoilerplateContainer` in content-extract.ts: walk up to four
ancestors from the path `orig`; `body`'s parents (`html`, then none) never
match and end the walk with the original node, exactly as in the source. -/
def fbcGo (f : Nat) (body : DomNode) (orig : List Nat) : Nat → List Nat → List Nat
  | 0, _ => orig
  | d + 1, cur =>
    match nodeAtF f body cur with
    | some (DomNode.elem tag a cs) =>
      if tag = "article" ∨ tag = "main" ∨ tag = "body" then orig
      else if (tag = "section" ∨ tag = "aside" ∨ tag = "div" ∨ tag = "nav") ∧
          ((normalizeText (textContentF f cs)).length ≤ 400 ∨
            isLinkHeavyN f (DomNode.elem tag a cs) = true ∨
            isBoilerplateNodeN (DomNode.elem tag a cs) = true) then cur
      else
        (match cur with
          | [] => orig
          | _ :: _ => fbcGo f body orig d cur.dropLast)
    | _ => orig

/-- The removal set `pruneDocument` accumulates over the snapshot of
`root.querySelectorAll('*')`, as paths from `body` in insertion order. -/
def markedPaths (f : Nat) (body : DomNode) : List (List Nat) :=
  (elemPathsF f (childrenOf body)).foldl (fun acc p =>
    match nodeAtF f body p with
    | some n =>
      if isBoilerplateNodeN n = true ∨ isLinkHeavyN f n = true then acc ++ [p]
      else
        (match getBoilerplateTextKindN f n with
          | none => acc
          | some .image =>
            if (descElemsF f (childrenOf n)).any (fun m => tagOf m == "img") then acc
            else acc ++ [p]
          | some .generic => acc ++ [fbcGo f body p 4 p])
    | none => acc) []

/-- Remove every node whose path extends a marked path (removing a marked
node detaches its subtree, so later removals inside it are no-ops; the final
tree is independent of the set's iteration order). -/
def removeMarkedF : Nat → List (List Nat) → List DomNode → List DomNode
  | 0, _, _ => []
  | f + 1, marked, ns => (enumFrom 0 ns).foldr (fun p acc =>
      if marked.contains [p.1] then acc
      else
        match p.2 with
        | .text s => .text s :: acc
        | .elem t a cs =>
          let sub := marked.filterMap (fun q =>
            match q with
            | j :: (r :: rs) => if j = p.1 then some (r :: rs) else none
            | _ => none)
          .elem t a (removeMarkedF f sub cs) :: acc) []

/-- Model of `pruneDocument` in content-extract.ts on `doc.body`'s children. -/
def pruneBody (f : Nat) (children : List DomNode) : List DomNode :=
  let body := DomNode.elem "body" [] children
  removeMarkedF f (markedPaths f body) children

/-- Model of `sanitizeContent` in content-extract.ts: parse, drop
`REMOVE_SELECTORS` subtrees, clean attributes, absolutize `a[href]` and
`img[src]`, prune boilerplate, and serialize `doc.body.innerHTML`. -/
def sanitizeContent (resolve : String → String → Option String) (html baseUrl : String) : String :=
  let f := html.toList.length + 1
  let s1 := removeSelectorsF f (parseHtml html)
  let s2 := attrCleanF f s1
  let s3 := absolutizeF resolve baseUrl f s2
  let s4 := pruneBody f s3
  innerHTMLF f s4

/-- The demonstration markup: a container with three links and one `nav`. -/
def sanitizerDemoInput : String :=
  "<div><a>aaaaaaa</a><a>aaaaaaa</a><a>aaaaaaa</a><nav>xxxxxxxxxxxxxxx</nav></div>"

/-- The result of one sanitizer pass on the demonstration markup. -/
def sanitizerDemoOnce : String :=
  sanitizeContent (fun _ _ => none) sanitizerDemoInput "https://example.com/"

set_option maxHeartbeats 2000000 in
/-- C5 counterexample.  One sanitizer pass keeps the container (link density
21/36 is below 0.6) and only removes the `nav`; the second pass, applied to
the first pass's own output, recomputes the density as 21/21 and removes the
whole container, so `sanitizeContent` is not idempotent. -/
theorem sanitizeContent_not_idempotent :
    sanitizerDemoOnce = "<div><a>aaaaaaa</a><a>aaaaaaa</a><a>aaaaaaa</a></div>" ∧
    sanitizeContent (fun _ _ => none) sanitizerDemoOnce "https://example.com/" = "" ∧
    sanitizeContent (fun _ _ => none) sanitizerDemoOnce "https://example.com/" ≠ sanitizerDemoOnce := by
  refine ⟨by decide, by decide, by decide⟩

theorem removeSelectorsF_cons_text (f : Nat) (s : String) (ns : List DomNode) :
    removeSelectorsF (f + 1) (.text s :: ns) = .text s :: removeSelectorsF (f + 1) ns := rfl

theorem removeSelectorsF_cons_elem (f : Nat) (t : String) (a : List (String × String))
    (cs ns : List DomNode) :
    removeSelectorsF (f + 1) (.elem t a cs :: ns) =
      if REMOVE_SELECTORS.contains t then removeSelectorsF (f + 1) ns
      else .elem t a (removeSelectorsF f cs) :: removeSelectorsF (f + 1) ns := rfl

theorem removeSelectorsF_idem : ∀ (f : Nat) (ns : List DomNode),
    removeSelectorsF f (removeSelectorsF f ns) = removeSelectorsF f ns := by
  intro f
  induction f with
  | zero => intro ns; rfl
  | succ f ih =>
    intro ns
    induction ns with
    | nil => rfl
    | cons n ns ihn =>
      cases n with
      | text s => rw [removeSelectorsF_cons_text, removeSelectorsF_cons_text, ihn]
      | elem t a cs =>
        cases hT : REMOVE_SELECTORS.contains t with
        | true => simp only [removeSelectorsF_cons_elem, hT, if_true]; exact ihn
        | false =>
          simp only [removeSelectorsF_cons_elem, hT, Bool.false_eq_true, if_false,
            removeSelectorsF_cons_elem]
          rw [ihn, ih]

theorem cleanAttr1_some (nv w : String × String) (h : cleanAttr1 nv = some w) :
    cleanAttr1 w = some w := by
  unfold cleanAttr1 at h
  by_cases h1 : isPrefixSeq "on".toList nv.1.toList = true ∨ nv.1 = "style"
  · rw [if_pos h1] at h
    exact Option.noConfusion h
  · rw [if_neg h1] at h
    by_cases h2 : nv.1 = "href" ∧ isPrefixSeq "javascript:".toList (lowerAscii nv.2).toList = true
    · rw [if_pos h2] at h
      injection h with hw
      subst hw
      unfold cleanAttr1
      rw [h2.1]
      decide
    · rw [if_neg h2] at h
      by_cases h3 : nv.1 = "src" ∧ isPrefixSeq "javascript:".toList (lowerAscii nv.2).toList = true
      · rw [if_pos h3] at h
        exact Option.noConfusion h
      · rw [if_neg h3] at h
        injection h with hw
        subst hw
        unfold cleanAttr1
        rw [if_neg h1, if_neg h2, if_neg h3]

theorem filterMap_cleanAttr1_idem : ∀ (l : List (String × String)),
    (l.filterMap cleanAttr1).filterMap cleanAttr1 = l.filterMap cleanAttr1 := by
  intro l
  induction l with
  | nil => rfl
  | cons nv rest ih =>
    cases h : cleanAttr1 nv with
    | none => simp only [List.filterMap_cons, h, ih]
    | some w => simp only [List.filterMap_cons, h, cleanAttr1_some nv w h, ih]

theorem cleanAttrs_idem (a : List (String × String)) :
    cleanAttrs (cleanAttrs a) = cleanAttrs a :=
  filterMap_cleanAttr1_idem a

theorem attrCleanF_cons_text (f : Nat) (s : String) (ns : List DomNode) :
    attrCleanF (f + 1) (.text s :: ns) = .text s :: attrCleanF (f + 1) ns := rfl

theorem attrCleanF_cons_elem (f : Nat) (t : String) (a : List (String × String))
    (cs ns : List DomNode) :
    attrCleanF (f + 1) (.elem t a cs :: ns) =
      .elem t (cleanAttrs a) (attrCleanF f cs) :: attrCleanF (f + 1) ns := rfl

theorem attrCleanF_idem : ∀ (f : Nat) (ns : List DomNode),
    attrCleanF f (attrCleanF f ns) = attrCleanF f ns := by
  intro f
  induction f with
  | zero => intro ns; rfl
  | succ f ih =>
    intro ns
    induction ns with
    | nil => rfl
    | cons n ns ihn =>
      cases n with
      | text s => rw [attrCleanF_cons_text, attrCleanF_cons_text, ihn]
      | elem t a cs =>
        rw [attrCleanF_cons_elem, attrCleanF_cons_elem, ihn, ih, cleanAttrs_idem]

/-- C5.  The claim's idempotence invariant fails for the full sanitizer (see
`sanitizeContent_not_idempotent`: pruning recomputes link density on its own
output, so a second pass can remove more).  What does hold is that the
structural cleanup passes are idempotent: removing the `REMOVE_SELECTORS`
subtrees twice, or sanitizing attributes twice, equals doing it once, at every
recursion-depth bound. -/
theorem sanitizePasses_idempotent (f : Nat) (ns : List DomNode) :
    removeSelectorsF f (removeSelectorsF f ns) = removeSelectorsF f ns ∧
    attrCleanF f (attrCleanF f ns) = attrCleanF f ns :=
  ⟨removeSelectorsF_idem f ns, attrCleanF_idem f ns⟩

/-- Witness instantiating `embedImages_asset_per_placeholder` on the
duplicate-URL example. -/
theorem embedImages_asset_per_placeholder_witness :
    (embedImages dupOracle [dupArticle]).fetchedUrls.Nodup ∧
    (∀ u ∈ (embedImages dupOracle [dupArticle]).fetchedUrls, isHttpLike u = true) ∧
    (embedImages dupOracle [dupArticle]).assets.length =
      ((plannedImagesOf [dupArticle]).filter
        (fun p => (imageOutcome dupOracle p.sourceUrl).isSome)).length :=
  embedImages_asset_per_placeholder dupOracle [dupArticle]
